import Mathlib

set_option maxRecDepth 8192

/-!
Verification of the CLSAG-GG / CLSAG-GGXG ring-signature core
(src/crypto/clsag.cpp) against its specification.

The scalar/point algebra, the hash-to-point function hp, and the transcript
sponge are external collaborators of the source file.  They are embedded as
follows.

The curve group (an Edwards curve of order 8*l with cofactor 8) is modelled
by the cyclic group `ZMod 24 = ZMod (8 * 3)` with the toy prime l = 3: the
main subgroup is the set of points killed by 3, the scalar field is
`ZMod 3`, scalar multiplication of a point uses the canonical integer
representative of the scalar (as the C++ scalar_t does), `modify_mul8`
multiplies by the cofactor 8, and `c_scalar_1div8` is the inverse of 8
modulo 3.  Public keys and key images are 32-byte canonical encodings of
points; since the canonical encoding is injective they are identified with
the points themselves, and a 32-byte transcript item is encoded as a natural
number.

The hash-to-point `hash_helper_t::hp` and the two sponge finalizers
`calc_hash` / `calc_hash_no_reduce` are arbitrary functions, taken as
parameters `hp`, `Hs`, `Hnr` of every operation.
-/

deriving instance DecidableEq for Except

namespace ClsagSpec

/-- Scalar field of the toy curve: the prime-order part has order 3. -/
abbrev Scalar := ZMod 3

/-- Curve group of the toy curve: cyclic of order 8 * 3 (cofactor 8). -/
abbrev Point := ZMod 24

/-- Scalar multiplication of a point: the scalar acts through its canonical
integer representative, exactly as the external scalar_t/point_t algebra
does. -/
def smul (s : Scalar) (P : Point) : Point := (s.val : Point) * P

/-- The in-place multiplication by the cofactor 8 (point_t::modify_mul8). -/
def mul8 (P : Point) : Point := 8 * P

/-- The base generator G (a fixed generator of the main subgroup). -/
def c_point_G : Point := 8

/-- The second generator X used by the GGXG scheme. -/
def c_point_X : Point := 16

/-- The constant scalar 1/8 (c_scalar_1div8): the inverse of 8 modulo 3. -/
def c_scalar_1div8 : Scalar := 2

/-- Main-subgroup membership check (point_t::is_in_main_subgroup): the point
is killed by the prime group order l = 3. -/
def is_in_main_subgroup (P : Point) : Bool := decide ((3 : Point) * P = 0)

/-- Canonical 32-byte encoding of a point, as a transcript item. -/
def encP (P : Point) : ℕ := P.val

/-- Ring member of the GG scheme (CLSAG_GG_input_ref_t). -/
structure CLSAG_GG_input_ref_t where
  stealth_address : Point
  amount_commitment : Point
deriving DecidableEq, Inhabited, Repr

/-- Ring member of the GGXG scheme (CLSAG_GGXG_input_ref_t). -/
structure CLSAG_GGXG_input_ref_t where
  stealth_address : Point
  amount_commitment : Point
  concealing_point : Point
deriving DecidableEq, Inhabited, Repr

/-- CLSAG-GG signature. -/
structure CLSAG_GG_signature where
  c : Scalar
  r : List Scalar
  K1 : Point
deriving DecidableEq, Inhabited, Repr

/-- CLSAG-GGXG signature. -/
structure CLSAG_GGXG_signature where
  c : Scalar
  r_g : List Scalar
  r_x : List Scalar
  K1 : Point
  K2 : Point
  K3 : Point
deriving DecidableEq, Inhabited, Repr

/-- Domain-separation tag CRYPTO_HDS_CLSAG_GG_LAYER_0 (a fixed 32-byte
literal, encoded as a distinguished natural number). -/
def CRYPTO_HDS_CLSAG_GG_LAYER_0 : ℕ := 1000001

/-- Domain-separation tag CRYPTO_HDS_CLSAG_GG_LAYER_1. -/
def CRYPTO_HDS_CLSAG_GG_LAYER_1 : ℕ := 1000002

/-- Domain-separation tag CRYPTO_HDS_CLSAG_GG_CHALLENGE. -/
def CRYPTO_HDS_CLSAG_GG_CHALLENGE : ℕ := 1000003

/-- Domain-separation tag CRYPTO_HDS_CLSAG_GGXG_LAYER_0. -/
def CRYPTO_HDS_CLSAG_GGXG_LAYER_0 : ℕ := 1000011

/-- Domain-separation tag CRYPTO_HDS_CLSAG_GGXG_LAYER_1. -/
def CRYPTO_HDS_CLSAG_GGXG_LAYER_1 : ℕ := 1000012

/-- Domain-separation tag CRYPTO_HDS_CLSAG_GGXG_LAYER_2. -/
def CRYPTO_HDS_CLSAG_GGXG_LAYER_2 : ℕ := 1000013

/-- Domain-separation tag CRYPTO_HDS_CLSAG_GGXG_LAYER_3. -/
def CRYPTO_HDS_CLSAG_GGXG_LAYER_3 : ℕ := 1000014

/-- Domain-separation tag CRYPTO_HDS_CLSAG_GGXG_CHALLENGE. -/
def CRYPTO_HDS_CLSAG_GGXG_CHALLENGE : ℕ := 1000015

/-- Modelled from the spec: the transcript sponge hash_helper_t::hs_t is not
part of this source file.  Per the spec formula
mu_l = reduce(H(LAYER_TAG_l, input_hash)), each finalization hashes exactly
the items absorbed since the previous finalization, so every derived scalar
is the hash `Hs` of its own block of items.  An aggregation coefficient is
derived from a layer tag and the unreduced input hash. -/
def agg_coeff (Hs : List ℕ → Scalar) (tag ih : ℕ) : Scalar := Hs [tag, ih]

/-- Items absorbed for the ring members of a GG input transcript: for each
member, its stealth address then its amount commitment (add_pub_key). -/
def ring_items_GG (ring : List CLSAG_GG_input_ref_t) : List ℕ :=
  (ring.map fun e => [encP e.stealth_address, encP e.amount_commitment]).flatten

/-- Items absorbed for the ring members of a GGXG input transcript: stealth
address, amount commitment, concealing point per member (add_pub_key). -/
def ring_items_GGXG (ring : List CLSAG_GGXG_input_ref_t) : List ℕ :=
  (ring.map fun e =>
    [encP e.stealth_address, encP e.amount_commitment, encP e.concealing_point]).flatten

/-- Input transcript of the GG signer: the message, the ring members, the
point (1/8)*pseudo_out_amount_commitment (add_point), and the key image. -/
def input_items_GG_gen (m : ℕ) (ring : List CLSAG_GG_input_ref_t)
    (pseudo_out_amount_commitment ki : Point) : List ℕ :=
  m :: (ring_items_GG ring ++
    [encP (smul c_scalar_1div8 pseudo_out_amount_commitment), encP ki])

/-- Input transcript of the GG verifier: the message, the ring members, the
raw bytes of the supplied pseudo-output commitment (add_pub_key), and the
key image. -/
def input_items_GG_ver (m : ℕ) (ring : List CLSAG_GG_input_ref_t)
    (pseudo_out_amount_commitment ki : Point) : List ℕ :=
  m :: (ring_items_GG ring ++ [encP pseudo_out_amount_commitment, encP ki])

/-- Input transcript of the GGXG signer: message, ring members, the points
(1/8)*C and (1/8)*T (add_point), and the key image. -/
def input_items_GGXG_gen (m : ℕ) (ring : List CLSAG_GGXG_input_ref_t)
    (pseudo_out_amount_commitment extended_amount_commitment ki : Point) : List ℕ :=
  m :: (ring_items_GGXG ring ++
    [encP (smul c_scalar_1div8 pseudo_out_amount_commitment),
     encP (smul c_scalar_1div8 extended_amount_commitment), encP ki])

/-- Input transcript of the GGXG verifier: message, ring members, the raw
bytes of the supplied commitments C and T (add_pub_key), and the key
image. -/
def input_items_GGXG_ver (m : ℕ) (ring : List CLSAG_GGXG_input_ref_t)
    (pseudo_out_amount_commitment extended_amount_commitment ki : Point) : List ℕ :=
  m :: (ring_items_GGXG ring ++
    [encP pseudo_out_amount_commitment, encP extended_amount_commitment, encP ki])

/-- The key-image base of the GG schemes: hp(ring[secret_index].stealth_address). -/
def ki_base_GG (hp : Point → Point) (ring : List CLSAG_GG_input_ref_t) (pi : ℕ) : Point :=
  hp ((ring.getD pi default).stealth_address)

/-- The key-image base of the GGXG schemes. -/
def ki_base_GGXG (hp : Point → Point) (ring : List CLSAG_GGXG_input_ref_t) (pi : ℕ) : Point :=
  hp ((ring.getD pi default).stealth_address)

/-- Aggregate public key of ring member i in the GG scheme (W_pub_keys):
agg_coeff_0 * stealth + agg_coeff_1 * (8 * amount_commitment - C). -/
def W_pub_keys_GG (a0 a1 : Scalar) (ring : List CLSAG_GG_input_ref_t)
    (Cpt : Point) (i : ℕ) : Point :=
  smul a0 ((ring.getD i default).stealth_address) +
    smul a1 (mul8 ((ring.getD i default).amount_commitment) - Cpt)

/-- Aggregate key image of the GG scheme (W_key_image):
agg_coeff_0 * key_image + agg_coeff_1 * K1. -/
def W_key_image_GG (a0 a1 : Scalar) (KI K1 : Point) : Point :=
  smul a0 KI + smul a1 K1

/-- One challenge block of the GG ring walk: the challenge tag, the input
hash, the commitment r*G + c*W_i and the commitment r*hp(stealth_i) + c*W_ki,
hashed to the next challenge. -/
def chal_block_GG (hp : Point → Point) (Hs : List ℕ → Scalar) (ih : ℕ)
    (ring : List CLSAG_GG_input_ref_t) (W : ℕ → Point) (Wki : Point)
    (r : ℕ → Scalar) (c : Scalar) (i : ℕ) : Scalar :=
  Hs [CRYPTO_HDS_CLSAG_GG_CHALLENGE, ih,
      encP (smul (r i) c_point_G + smul c (W i)),
      encP (smul (r i) (hp ((ring.getD i default).stealth_address)) + smul c Wki)]

/-- Initial commitment challenge of the GG signer: the challenge tag, the
input hash, alpha*G and alpha*ki_base. -/
def cinit_GG (Hs : List ℕ → Scalar) (ih : ℕ) (alpha : Scalar) (kib : Point) : Scalar :=
  Hs [CRYPTO_HDS_CLSAG_GG_CHALLENGE, ih,
      encP (smul alpha c_point_G), encP (smul alpha kib)]

/-- Index walked at loop iteration j of the signer: (secret_index + 1 + j) mod n. -/
def idxW (pi n j : ℕ) : ℕ := (pi + 1 + j) % n

/-- One iteration of the signer's challenge loop: record sig.c when the
walked index is 0, then absorb the block and step the running challenge. -/
def walk_body (step : Scalar → ℕ → Scalar) (idx : ℕ → ℕ)
    (st : Scalar × Option Scalar) (j : ℕ) : Scalar × Option Scalar :=
  (step st.1 (idx j), if idx j = 0 then some st.1 else st.2)

/-- Challenge chain: iterate a challenge step along an index schedule. -/
def chainF (step : Scalar → ℕ → Scalar) (idx : ℕ → ℕ) (c0 : Scalar) : ℕ → Scalar
  | 0 => c0
  | j + 1 => step (chainF step idx c0 j) (idx j)

/-- The GG signer's running challenge after j loop iterations, assembled
from the signer's transcript blocks. -/
def signer_chain_GG (hp : Point → Point) (Hs : List ℕ → Scalar) (Hnr : List ℕ → ℕ)
    (m : ℕ) (ring : List CLSAG_GG_input_ref_t) (C' ki : Point)
    (secret_x secret_f : Scalar) (pi : ℕ) (alpha : Scalar) (rnd : ℕ → Scalar)
    (j : ℕ) : Scalar :=
  let kib := ki_base_GG hp ring pi
  let ih := Hnr (input_items_GG_gen m ring C' ki)
  let a0 := agg_coeff Hs CRYPTO_HDS_CLSAG_GG_LAYER_0 ih
  let a1 := agg_coeff Hs CRYPTO_HDS_CLSAG_GG_LAYER_1 ih
  let step := chal_block_GG hp Hs ih ring (W_pub_keys_GG a0 a1 ring C')
    (W_key_image_GG a0 a1 (smul secret_x kib) (mul8 (smul (c_scalar_1div8 * secret_f) kib))) rnd
  chainF step (idxW pi ring.length) (cinit_GG Hs ih alpha kib) j

/-- The GG signer's aggregate secret key w = agg_coeff_0 * x + agg_coeff_1 * f. -/
def signer_w_GG (Hs : List ℕ → Scalar) (Hnr : List ℕ → ℕ) (m : ℕ)
    (ring : List CLSAG_GG_input_ref_t) (C' ki : Point)
    (secret_x secret_f : Scalar) : Scalar :=
  let ih := Hnr (input_items_GG_gen m ring C' ki)
  agg_coeff Hs CRYPTO_HDS_CLSAG_GG_LAYER_0 ih * secret_x +
    agg_coeff Hs CRYPTO_HDS_CLSAG_GG_LAYER_1 ih * secret_f

/-- The CLSAG-GG signer (generate_CLSAG_GG).  The randomness sampled during
signing (alpha and the fake responses) is passed explicitly; a
CRYPTO_CHECK_AND_THROW_MES failure is a fatal error surfaced to the caller,
modelled as Except.error. -/
def generate_CLSAG_GG (hp : Point → Point) (Hs : List ℕ → Scalar) (Hnr : List ℕ → ℕ)
    (m : ℕ) (ring : List CLSAG_GG_input_ref_t)
    (pseudo_out_amount_commitment : Point) (ki : Point)
    (secret_x secret_f : Scalar) (secret_index : ℕ)
    (alpha : Scalar) (rnd : ℕ → Scalar) : Except String CLSAG_GG_signature :=
  if ring.length = 0 then .error "ring size is zero"
  else if ¬ secret_index < ring.length then .error "secret_index is out of range"
  else if ¬ smul secret_x (ki_base_GG hp ring secret_index) = ki then
    .error "key image 0 mismatch"
  else
    let n := ring.length
    let kib := ki_base_GG hp ring secret_index
    let K1_div8 := smul (c_scalar_1div8 * secret_f) kib
    let ih := Hnr (input_items_GG_gen m ring pseudo_out_amount_commitment ki)
    let a0 := agg_coeff Hs CRYPTO_HDS_CLSAG_GG_LAYER_0 ih
    let a1 := agg_coeff Hs CRYPTO_HDS_CLSAG_GG_LAYER_1 ih
    let w := a0 * secret_x + a1 * secret_f
    let step := chal_block_GG hp Hs ih ring
      (W_pub_keys_GG a0 a1 ring pseudo_out_amount_commitment)
      (W_key_image_GG a0 a1 (smul secret_x kib) (mul8 K1_div8)) rnd
    let fin := (List.range (n - 1)).foldl (walk_body step (idxW secret_index n))
      (cinit_GG Hs ih alpha kib, none)
    let sig_c := if secret_index = 0 then fin.1 else fin.2.getD 0
    .ok { c := sig_c,
          r := ((List.range n).map rnd).set secret_index (alpha - fin.1 * w),
          K1 := K1_div8 }

/-- The accept computation of the CLSAG-GG verifier after its precondition
checks: rebuild the aggregates and walk the full ring from sig.c, accepting
iff the final challenge equals sig.c. -/
def verify_core_GG (hp : Point → Point) (Hs : List ℕ → Scalar) (Hnr : List ℕ → ℕ)
    (m : ℕ) (ring : List CLSAG_GG_input_ref_t)
    (pseudo_out_amount_commitment ki : Point) (sig : CLSAG_GG_signature) : Bool :=
  let n := ring.length
  let ih := Hnr (input_items_GG_ver m ring pseudo_out_amount_commitment ki)
  let a0 := agg_coeff Hs CRYPTO_HDS_CLSAG_GG_LAYER_0 ih
  let a1 := agg_coeff Hs CRYPTO_HDS_CLSAG_GG_LAYER_1 ih
  let step := chal_block_GG hp Hs ih ring
    (W_pub_keys_GG a0 a1 ring (mul8 pseudo_out_amount_commitment))
    (W_key_image_GG a0 a1 ki (mul8 sig.K1)) (fun i => sig.r.getD i 0)
  decide ((List.range n).foldl step sig.c = sig.c)

/-- The CLSAG-GG verifier (verify_CLSAG_GG): precondition checks surface
fatal errors (CRYPTO_CHECK_AND_THROW_MES), then the ring walk decides
acceptance. -/
def verify_CLSAG_GG (hp : Point → Point) (Hs : List ℕ → Scalar) (Hnr : List ℕ → ℕ)
    (m : ℕ) (ring : List CLSAG_GG_input_ref_t)
    (pseudo_out_amount_commitment ki : Point)
    (sig : CLSAG_GG_signature) : Except String Bool :=
  if ring.length = 0 then .error "ring size is zero"
  else if ¬ ring.length = sig.r.length then .error "ring size != r size"
  else if ¬ is_in_main_subgroup ki = true then
    .error "key image 0 does not belong to the main subgroup"
  else .ok (verify_core_GG hp Hs Hnr m ring pseudo_out_amount_commitment ki sig)

/-- G-side aggregate public key of ring member i in the GGXG scheme
(W_pub_keys_g): agg_coeff_0 * stealth + agg_coeff_1 * (A_i - C) +
agg_coeff_3 * Q_i, where A_i and Q_i are the mul8'd amount commitment and
concealing point. -/
def W_pub_keys_g_GGXG (a0 a1 a3 : Scalar) (ring : List CLSAG_GGXG_input_ref_t)
    (Cpt : Point) (i : ℕ) : Point :=
  smul a0 ((ring.getD i default).stealth_address) +
    smul a1 (mul8 ((ring.getD i default).amount_commitment) - Cpt) +
    smul a3 (mul8 ((ring.getD i default).concealing_point))

/-- X-side aggregate public key of ring member i in the GGXG scheme
(W_pub_keys_x): agg_coeff_2 * (T - A_i - Q_i). -/
def W_pub_keys_x_GGXG (a2 : Scalar) (ring : List CLSAG_GGXG_input_ref_t)
    (Tpt : Point) (i : ℕ) : Point :=
  smul a2 (Tpt - mul8 ((ring.getD i default).amount_commitment) -
    mul8 ((ring.getD i default).concealing_point))

/-- G-side aggregate key image of the GGXG scheme (W_key_image_g):
agg_coeff_0 * key_image + agg_coeff_1 * K1 + agg_coeff_3 * K3 (the
agg_coeff_2 * K2 term is commented out in the source). -/
def W_key_image_g_GGXG (a0 a1 a3 : Scalar) (KI K1 K3 : Point) : Point :=
  smul a0 KI + smul a1 K1 + smul a3 K3

/-- X-side aggregate key image of the GGXG scheme (W_key_image_x):
agg_coeff_2 * K2. -/
def W_key_image_x_GGXG (a2 : Scalar) (K2 : Point) : Point :=
  smul a2 K2

/-- One challenge block of the GGXG ring walk: the challenge tag, the input
hash, and the four commitments (two on the G side, two on the X side). -/
def chal_block_GGXG (hp : Point → Point) (Hs : List ℕ → Scalar) (ih : ℕ)
    (ring : List CLSAG_GGXG_input_ref_t) (Wg Wx : ℕ → Point) (Wkig Wkix : Point)
    (rg rx : ℕ → Scalar) (c : Scalar) (i : ℕ) : Scalar :=
  Hs [CRYPTO_HDS_CLSAG_GGXG_CHALLENGE, ih,
      encP (smul (rg i) c_point_G + smul c (Wg i)),
      encP (smul (rg i) (hp ((ring.getD i default).stealth_address)) + smul c Wkig),
      encP (smul (rx i) c_point_X + smul c (Wx i)),
      encP (smul (rx i) (hp ((ring.getD i default).stealth_address)) + smul c Wkix)]

/-- Initial commitment challenge of the GGXG signer: the challenge tag, the
input hash, alpha_g*G, alpha_g*ki_base, alpha_x*X, alpha_x*ki_base. -/
def cinit_GGXG (Hs : List ℕ → Scalar) (ih : ℕ) (alpha_g alpha_x : Scalar)
    (kib : Point) : Scalar :=
  Hs [CRYPTO_HDS_CLSAG_GGXG_CHALLENGE, ih,
      encP (smul alpha_g c_point_G), encP (smul alpha_g kib),
      encP (smul alpha_x c_point_X), encP (smul alpha_x kib)]

/-- The GGXG signer's running challenge after j loop iterations. -/
def signer_chain_GGXG (hp : Point → Point) (Hs : List ℕ → Scalar) (Hnr : List ℕ → ℕ)
    (m : ℕ) (ring : List CLSAG_GGXG_input_ref_t) (C' T ki : Point)
    (secret_0_xp secret_1_f secret_2_x secret_3_q : Scalar) (pi : ℕ)
    (alpha_g alpha_x : Scalar) (rndg rndx : ℕ → Scalar) (j : ℕ) : Scalar :=
  let kib := ki_base_GGXG hp ring pi
  let ih := Hnr (input_items_GGXG_gen m ring C' T ki)
  let a0 := agg_coeff Hs CRYPTO_HDS_CLSAG_GGXG_LAYER_0 ih
  let a1 := agg_coeff Hs CRYPTO_HDS_CLSAG_GGXG_LAYER_1 ih
  let a2 := agg_coeff Hs CRYPTO_HDS_CLSAG_GGXG_LAYER_2 ih
  let a3 := agg_coeff Hs CRYPTO_HDS_CLSAG_GGXG_LAYER_3 ih
  let step := chal_block_GGXG hp Hs ih ring
    (W_pub_keys_g_GGXG a0 a1 a3 ring C') (W_pub_keys_x_GGXG a2 ring T)
    (W_key_image_g_GGXG a0 a1 a3 (smul secret_0_xp kib)
      (mul8 (smul (c_scalar_1div8 * secret_1_f) kib))
      (mul8 (smul (c_scalar_1div8 * secret_3_q) kib)))
    (W_key_image_x_GGXG a2 (mul8 (smul (c_scalar_1div8 * secret_2_x) kib))) rndg rndx
  chainF step (idxW pi ring.length) (cinit_GGXG Hs ih alpha_g alpha_x kib) j

/-- The GGXG signer's G-side aggregate secret key
w_sec_key_g = a0 * xp + a1 * f + a3 * q. -/
def signer_wg_GGXG (Hs : List ℕ → Scalar) (Hnr : List ℕ → ℕ) (m : ℕ)
    (ring : List CLSAG_GGXG_input_ref_t) (C' T ki : Point)
    (secret_0_xp secret_1_f secret_3_q : Scalar) : Scalar :=
  let ih := Hnr (input_items_GGXG_gen m ring C' T ki)
  agg_coeff Hs CRYPTO_HDS_CLSAG_GGXG_LAYER_0 ih * secret_0_xp +
    agg_coeff Hs CRYPTO_HDS_CLSAG_GGXG_LAYER_1 ih * secret_1_f +
    agg_coeff Hs CRYPTO_HDS_CLSAG_GGXG_LAYER_3 ih * secret_3_q

/-- The GGXG signer's X-side aggregate secret key w_sec_key_x = a2 * x. -/
def signer_wx_GGXG (Hs : List ℕ → Scalar) (Hnr : List ℕ → ℕ) (m : ℕ)
    (ring : List CLSAG_GGXG_input_ref_t) (C' T ki : Point)
    (secret_2_x : Scalar) : Scalar :=
  agg_coeff Hs CRYPTO_HDS_CLSAG_GGXG_LAYER_2
    (Hnr (input_items_GGXG_gen m ring C' T ki)) * secret_2_x

/-- The CLSAG-GGXG signer (generate_CLSAG_GGXG), with explicit randomness
and fatal errors modelled as Except.error. -/
def generate_CLSAG_GGXG (hp : Point → Point) (Hs : List ℕ → Scalar) (Hnr : List ℕ → ℕ)
    (m : ℕ) (ring : List CLSAG_GGXG_input_ref_t)
    (pseudo_out_amount_commitment extended_amount_commitment ki : Point)
    (secret_0_xp secret_1_f secret_2_x secret_3_q : Scalar) (secret_index : ℕ)
    (alpha_g alpha_x : Scalar) (rndg rndx : ℕ → Scalar) :
    Except String CLSAG_GGXG_signature :=
  if ring.length = 0 then .error "ring size is zero"
  else if ¬ secret_index < ring.length then .error "secret_index is out of range"
  else if ¬ smul secret_0_xp (ki_base_GGXG hp ring secret_index) = ki then
    .error "key image 0 mismatch"
  else
    let n := ring.length
    let kib := ki_base_GGXG hp ring secret_index
    let K1_div8 := smul (c_scalar_1div8 * secret_1_f) kib
    let K2_div8 := smul (c_scalar_1div8 * secret_2_x) kib
    let K3_div8 := smul (c_scalar_1div8 * secret_3_q) kib
    let ih := Hnr (input_items_GGXG_gen m ring pseudo_out_amount_commitment
      extended_amount_commitment ki)
    let a0 := agg_coeff Hs CRYPTO_HDS_CLSAG_GGXG_LAYER_0 ih
    let a1 := agg_coeff Hs CRYPTO_HDS_CLSAG_GGXG_LAYER_1 ih
    let a2 := agg_coeff Hs CRYPTO_HDS_CLSAG_GGXG_LAYER_2 ih
    let a3 := agg_coeff Hs CRYPTO_HDS_CLSAG_GGXG_LAYER_3 ih
    let w_g := a0 * secret_0_xp + a1 * secret_1_f + a3 * secret_3_q
    let w_x := a2 * secret_2_x
    let step := chal_block_GGXG hp Hs ih ring
      (W_pub_keys_g_GGXG a0 a1 a3 ring pseudo_out_amount_commitment)
      (W_pub_keys_x_GGXG a2 ring extended_amount_commitment)
      (W_key_image_g_GGXG a0 a1 a3 (smul secret_0_xp kib) (mul8 K1_div8) (mul8 K3_div8))
      (W_key_image_x_GGXG a2 (mul8 K2_div8)) rndg rndx
    let fin := (List.range (n - 1)).foldl (walk_body step (idxW secret_index n))
      (cinit_GGXG Hs ih alpha_g alpha_x kib, none)
    let sig_c := if secret_index = 0 then fin.1 else fin.2.getD 0
    .ok { c := sig_c,
          r_g := ((List.range n).map rndg).set secret_index (alpha_g - fin.1 * w_g),
          r_x := ((List.range n).map rndx).set secret_index (alpha_x - fin.1 * w_x),
          K1 := K1_div8, K2 := K2_div8, K3 := K3_div8 }

/-- The accept computation of the CLSAG-GGXG verifier after its
precondition checks. -/
def verify_core_GGXG (hp : Point → Point) (Hs : List ℕ → Scalar) (Hnr : List ℕ → ℕ)
    (m : ℕ) (ring : List CLSAG_GGXG_input_ref_t)
    (pseudo_out_amount_commitment extended_amount_commitment ki : Point)
    (sig : CLSAG_GGXG_signature) : Bool :=
  let n := ring.length
  let ih := Hnr (input_items_GGXG_ver m ring pseudo_out_amount_commitment
    extended_amount_commitment ki)
  let a0 := agg_coeff Hs CRYPTO_HDS_CLSAG_GGXG_LAYER_0 ih
  let a1 := agg_coeff Hs CRYPTO_HDS_CLSAG_GGXG_LAYER_1 ih
  let a2 := agg_coeff Hs CRYPTO_HDS_CLSAG_GGXG_LAYER_2 ih
  let a3 := agg_coeff Hs CRYPTO_HDS_CLSAG_GGXG_LAYER_3 ih
  let step := chal_block_GGXG hp Hs ih ring
    (W_pub_keys_g_GGXG a0 a1 a3 ring (mul8 pseudo_out_amount_commitment))
    (W_pub_keys_x_GGXG a2 ring (mul8 extended_amount_commitment))
    (W_key_image_g_GGXG a0 a1 a3 ki (mul8 sig.K1) (mul8 sig.K3))
    (W_key_image_x_GGXG a2 (mul8 sig.K2))
    (fun i => sig.r_g.getD i 0) (fun i => sig.r_x.getD i 0)
  decide ((List.range n).foldl step sig.c = sig.c)

/-- The CLSAG-GGXG verifier (verify_CLSAG_GGXG). -/
def verify_CLSAG_GGXG (hp : Point → Point) (Hs : List ℕ → Scalar) (Hnr : List ℕ → ℕ)
    (m : ℕ) (ring : List CLSAG_GGXG_input_ref_t)
    (pseudo_out_amount_commitment extended_amount_commitment ki : Point)
    (sig : CLSAG_GGXG_signature) : Except String Bool :=
  if ring.length = 0 then .error "ring size is zero"
  else if ¬ ring.length = sig.r_g.length then .error "ring size != r_g size"
  else if ¬ ring.length = sig.r_x.length then .error "ring size != r_x size"
  else if ¬ is_in_main_subgroup ki = true then
    .error "key image 0 does not belong to the main subgroup"
  else .ok (verify_core_GGXG hp Hs Hnr m ring pseudo_out_amount_commitment
    extended_amount_commitment ki sig)

/-- Discriminator for success of a fallible call. -/
def isOkE {α : Type} : Except String α → Bool
  | .ok _ => true
  | .error _ => false

/-- All points the GG verifier decodes from 32-byte encodings, in decode
order: the key image, the supplied pseudo-output commitment, each ring
member's stealth address and amount commitment, and sig.K1. -/
def decoded_points_GG_verify (ring : List CLSAG_GG_input_ref_t)
    (pseudo_out_amount_commitment ki : Point) (sig : CLSAG_GG_signature) : List Point :=
  ki :: pseudo_out_amount_commitment ::
    ((ring.map fun e => [e.stealth_address, e.amount_commitment]).flatten ++ [sig.K1])

/-- All points the GGXG verifier decodes from 32-byte encodings: the key
image, the supplied commitments C and T, each ring member's amount
commitment and concealing point, each stealth address, and sig.K1, K2, K3. -/
def decoded_points_GGXG_verify (ring : List CLSAG_GGXG_input_ref_t)
    (pseudo_out_amount_commitment extended_amount_commitment ki : Point)
    (sig : CLSAG_GGXG_signature) : List Point :=
  ki :: pseudo_out_amount_commitment :: extended_amount_commitment ::
    ((ring.map fun e => [e.amount_commitment, e.concealing_point]).flatten ++
      (ring.map fun e => e.stealth_address) ++ [sig.K1, sig.K2, sig.K3])

/-- Follows the spec text for claim comparison: the GGXG G-side aggregate
key image is mu0 * decode(ki) + mu1 * K1 + mu3 * K3, with K2 deliberately
absent from the G side (K2 and mu2 are parameters that the formula does not
use). -/
def spec_Wg_ki (mu0 mu1 _mu2 mu3 : Scalar) (KI K1 _K2 K3 : Point) : Point :=
  smul mu0 KI + smul mu1 K1 + smul mu3 K3

/-- Follows the spec text for claim comparison: the GGXG X-side aggregate
key image is mu2 * K2. -/
def spec_Wx_ki (mu2 : Scalar) (K2 : Point) : Point :=
  smul mu2 K2

/-- A concrete hash-to-point instance for witnesses (lands in the main
subgroup like the real hp, which ends in a mul8). -/
def hpW : Point → Point := fun P => mul8 (P + 3)

/-- A concrete challenge-hash instance for witnesses. -/
def HsW : List ℕ → Scalar := fun l => ((l.foldl (fun a x => a + 2 * x + 1) 0 : ℕ) : Scalar)

/-- A concrete unreduced-hash instance for witnesses. -/
def HnrW : List ℕ → ℕ := fun l => l.foldl (fun a x => a + 3 * x + 7) 1

/-! Algebraic facts about the toy curve group, all established by finite
check over the 24-element group and the 3-element scalar field. -/

theorem mul8_mem : ∀ P : Point, is_in_main_subgroup (mul8 P) = true := by decide

theorem smul_mem : ∀ (s : Scalar) (P : Point), is_in_main_subgroup P = true →
    is_in_main_subgroup (smul s P) = true := by decide

theorem smul_smul_mem : ∀ (a b : Scalar) (P : Point), is_in_main_subgroup P = true →
    smul a (smul b P) = smul (a * b) P := by decide

theorem smul_add_mem : ∀ (a b : Scalar) (P : Point), is_in_main_subgroup P = true →
    smul (a + b) P = smul a P + smul b P := by decide

theorem mul8_smul_inv8 : ∀ (s : Scalar) (P : Point), is_in_main_subgroup P = true →
    mul8 (smul (c_scalar_1div8 * s) P) = smul s P := by decide

theorem mul8_inv8 : ∀ P : Point, is_in_main_subgroup P = true →
    mul8 (smul c_scalar_1div8 P) = P := by decide

theorem sub_mem : ∀ P Q : Point, is_in_main_subgroup P = true →
    is_in_main_subgroup Q = true → is_in_main_subgroup (P - Q) = true := by decide

theorem add_mem : ∀ P Q : Point, is_in_main_subgroup P = true →
    is_in_main_subgroup Q = true → is_in_main_subgroup (P + Q) = true := by decide

theorem encP_inj : ∀ P Q : Point, encP P = encP Q → P = Q := by decide

theorem G_mem : is_in_main_subgroup c_point_G = true := by decide

theorem X_mem : is_in_main_subgroup c_point_X = true := by decide

/-- Ring-closure identity on a main-subgroup point: the closing response
r = alpha - c * w recreates the initial commitment alpha * P. -/
theorem closure_pt (P : Point) (hP : is_in_main_subgroup P = true)
    (alpha c w : Scalar) :
    smul (alpha - c * w) P + smul c (smul w P) = smul alpha P := by
  rw [smul_smul_mem c w P hP]
  rw [show smul alpha P = smul (alpha - c * w + c * w) P by ring_nf]
  rw [smul_add_mem _ _ _ hP]

/-! List bookkeeping lemmas. -/

theorem getD_set_ne : ∀ (l : List Scalar) (i j : ℕ) (a : Scalar), ¬ i = j →
    (l.set i a).getD j 0 = l.getD j 0 := by
  intro l
  induction l with
  | nil => intro i j a h; rfl
  | cons hd tl ih =>
    intro i j a h
    cases i with
    | zero =>
      cases j with
      | zero => exact absurd rfl h
      | succ j => simp [List.set]
    | succ i =>
      cases j with
      | zero => simp [List.set]
      | succ j => simpa [List.set] using ih i j a (by omega)

theorem getD_set_self : ∀ (l : List Scalar) (i : ℕ) (a : Scalar), i < l.length →
    (l.set i a).getD i 0 = a := by
  intro l
  induction l with
  | nil => intro i a h; simp at h
  | cons hd tl ih =>
    intro i a h
    cases i with
    | zero => rfl
    | succ i => simpa [List.set] using ih i a (by simpa using h)

theorem getD_map_range (n : ℕ) (f : ℕ → Scalar) (i : ℕ) (h : i < n) :
    ((List.range n).map f).getD i 0 = f i := by
  rw [List.getD_eq_getElem _ _ (by simpa using h)]
  simp

/-! Challenge-chain lemmas: the signer's loop state and the verifier's
fold both compute instances of `chainF`. -/

theorem chainF_foldl_range (step : Scalar → ℕ → Scalar) (c0 : Scalar) :
    ∀ mm : ℕ, (List.range mm).foldl step c0 = chainF step (fun k => k) c0 mm := by
  intro mm
  induction mm with
  | zero => rfl
  | succ mm ih => rw [List.range_succ, List.foldl_append]; simp [chainF, ih]

theorem walk_fst (step : Scalar → ℕ → Scalar) (idx : ℕ → ℕ) :
    ∀ (mm : ℕ) (st : Scalar × Option Scalar),
    ((List.range mm).foldl (walk_body step idx) st).1 = chainF step idx st.1 mm := by
  intro mm
  induction mm with
  | zero => intro st; rfl
  | succ mm ih =>
    intro st
    rw [List.range_succ, List.foldl_append]
    simp [walk_body, chainF, ih]

theorem idxW_lt (pi n j : ℕ) (hn : 0 < n) : idxW pi n j < n := Nat.mod_lt _ hn

theorem idxW_last (pi n : ℕ) (h : pi < n) : idxW pi n (n - 1) = pi := by
  unfold idxW
  rw [show pi + 1 + (n - 1) = pi + n by omega, Nat.add_mod_right, Nat.mod_eq_of_lt h]

theorem idxW_ne (pi n j : ℕ) (hπ : pi < n) (hj : j < n - 1) : ¬ idxW pi n j = pi := by
  unfold idxW
  intro h
  rcases Nat.lt_or_ge (pi + 1 + j) n with hlt | hge
  · rw [Nat.mod_eq_of_lt hlt] at h; omega
  · rw [Nat.mod_eq_sub_mod hge, Nat.mod_eq_of_lt (by omega)] at h; omega

theorem idxW_zero_iff (pi n j : ℕ) (hπ : pi < n) (hj : j < n - 1) :
    idxW pi n j = 0 ↔ (0 < pi ∧ j = n - 1 - pi) := by
  unfold idxW
  constructor
  · intro h
    rcases Nat.lt_or_ge (pi + 1 + j) n with hlt | hge
    · rw [Nat.mod_eq_of_lt hlt] at h; omega
    · rw [Nat.mod_eq_sub_mod hge, Nat.mod_eq_of_lt (by omega)] at h; omega
  · rintro ⟨hp, rfl⟩
    rw [show pi + 1 + (n - 1 - pi) = n by omega, Nat.mod_self]

theorem idxW_shift (pi n k : ℕ) (hπ : pi < n) (hk : k < n) :
    idxW pi n (n - 1 - pi + k) = k := by
  unfold idxW
  rw [show pi + 1 + (n - 1 - pi + k) = n + k by omega, Nat.add_mod_left,
    Nat.mod_eq_of_lt hk]

theorem idxW_period (pi n j : ℕ) : idxW pi n (j + n) = idxW pi n j := by
  unfold idxW
  rw [show pi + 1 + (j + n) = pi + 1 + j + n by omega, Nat.add_mod_right]

theorem walk_snd (step : Scalar → ℕ → Scalar) (pi n : ℕ) (hπ : pi < n) (c0 : Scalar) :
    ∀ mm, mm ≤ n - 1 →
    ((List.range mm).foldl (walk_body step (idxW pi n)) (c0, none)).2 =
      if 0 < pi ∧ n - 1 - pi < mm then
        some (chainF step (idxW pi n) c0 (n - 1 - pi)) else none := by
  intro mm
  induction mm with
  | zero => intro _; simp
  | succ m ih =>
    intro hm
    rw [List.range_succ, List.foldl_append]
    simp only [List.foldl_cons, List.foldl_nil]
    have h2 := ih (by omega)
    rw [show ∀ st : Scalar × Option Scalar, ∀ j, (walk_body step (idxW pi n) st j).2 =
      if idxW pi n j = 0 then some st.1 else st.2 from fun _ _ => rfl]
    rw [walk_fst step (idxW pi n) m (c0, none), h2]
    by_cases h0 : idxW pi n m = 0
    · rw [if_pos h0]
      rcases (idxW_zero_iff pi n m hπ (by omega)).mp h0 with ⟨hp, rfl⟩
      rw [if_pos ⟨hp, by omega⟩]
    · rw [if_neg h0]
      by_cases hc : 0 < pi ∧ n - 1 - pi < m
      · rw [if_pos hc, if_pos ⟨hc.1, by omega⟩]
      · rw [if_neg hc, if_neg ?_]
        rintro ⟨hp, hlt⟩
        have hm_eq : m = n - 1 - pi := by
          rcases Nat.lt_or_ge (n - 1 - pi) m with h | h
          · exact absurd ⟨hp, h⟩ hc
          · omega
        exact h0 ((idxW_zero_iff pi n m hπ (by omega)).mpr ⟨hp, hm_eq⟩)

theorem chainF_congr (step1 step2 : Scalar → ℕ → Scalar) (idx : ℕ → ℕ) (c0 : Scalar) :
    ∀ (j mm : ℕ), j ≤ mm → (∀ k, k < mm → ∀ c, step1 c (idx k) = step2 c (idx k)) →
    chainF step1 idx c0 j = chainF step2 idx c0 j := by
  intro j
  induction j with
  | zero => intro mm _ _; rfl
  | succ j ih =>
    intro mm hj hstep
    simp only [chainF]
    rw [ih mm (by omega) hstep, hstep j (by omega)]

theorem chainF_succ_of_pos (step : Scalar → ℕ → Scalar) (idx : ℕ → ℕ) (c0 : Scalar)
    (n : ℕ) (hn : 0 < n) :
    chainF step idx c0 n = step (chainF step idx c0 (n - 1)) (idx (n - 1)) := by
  cases n with
  | zero => simp at hn
  | succ n => simp [chainF]

theorem chainF_period (step : Scalar → ℕ → Scalar) (idx : ℕ → ℕ) (c0 : Scalar) (n : ℕ)
    (hcyc : chainF step idx c0 n = c0) (hidx : ∀ j, idx (j + n) = idx j) :
    ∀ j, chainF step idx c0 (j + n) = chainF step idx c0 j := by
  intro j
  induction j with
  | zero => simpa using hcyc
  | succ j ih =>
    rw [show j + 1 + n = (j + n) + 1 by omega]
    simp only [chainF]
    rw [ih, hidx j]

/-- A successful GG signing call in closed form: sig.c is the walk challenge
at ring position 0, the secret slot of r is overwritten with
alpha - c_final * w, and sig.K1 is the div8 key image. -/
theorem generate_CLSAG_GG_ok (hp : Point → Point) (Hs : List ℕ → Scalar)
    (Hnr : List ℕ → ℕ) (m : ℕ) (ring : List CLSAG_GG_input_ref_t) (C' ki : Point)
    (x f : Scalar) (pi : ℕ) (alpha : Scalar) (rnd : ℕ → Scalar)
    (hπ : pi < ring.length) (hki : smul x (ki_base_GG hp ring pi) = ki) :
    generate_CLSAG_GG hp Hs Hnr m ring C' ki x f pi alpha rnd = .ok
      { c := signer_chain_GG hp Hs Hnr m ring C' ki x f pi alpha rnd
          (ring.length - 1 - pi),
        r := ((List.range ring.length).map rnd).set pi
          (alpha - signer_chain_GG hp Hs Hnr m ring C' ki x f pi alpha rnd
            (ring.length - 1) * signer_w_GG Hs Hnr m ring C' ki x f),
        K1 := smul (c_scalar_1div8 * f) (ki_base_GG hp ring pi) } := by
  have h1 : ¬ ring.length = 0 := by omega
  have h2 : ¬ ¬ pi < ring.length := not_not_intro hπ
  have h3 : ¬ ¬ smul x (ki_base_GG hp ring pi) = ki := not_not_intro hki
  unfold generate_CLSAG_GG signer_chain_GG signer_w_GG
  rw [if_neg h1, if_neg h2, if_neg h3]
  simp only [Except.ok.injEq, CLSAG_GG_signature.mk.injEq]
  refine ⟨?_, ?_, trivial⟩
  · rw [walk_fst, walk_snd _ pi ring.length hπ _ (ring.length - 1) (Nat.le_refl _)]
    by_cases hpi : pi = 0
    · subst hpi
      simp
    · rw [if_neg hpi, if_pos ⟨by omega, by omega⟩]
      rfl
  · rw [walk_fst]

/-- A successful GGXG signing call in closed form. -/
theorem generate_CLSAG_GGXG_ok (hp : Point → Point) (Hs : List ℕ → Scalar)
    (Hnr : List ℕ → ℕ) (m : ℕ) (ring : List CLSAG_GGXG_input_ref_t) (C' T ki : Point)
    (xp f x q : Scalar) (pi : ℕ) (alpha_g alpha_x : Scalar) (rndg rndx : ℕ → Scalar)
    (hπ : pi < ring.length) (hki : smul xp (ki_base_GGXG hp ring pi) = ki) :
    generate_CLSAG_GGXG hp Hs Hnr m ring C' T ki xp f x q pi alpha_g alpha_x rndg rndx
      = .ok
      { c := signer_chain_GGXG hp Hs Hnr m ring C' T ki xp f x q pi alpha_g alpha_x
          rndg rndx (ring.length - 1 - pi),
        r_g := ((List.range ring.length).map rndg).set pi
          (alpha_g - signer_chain_GGXG hp Hs Hnr m ring C' T ki xp f x q pi alpha_g
            alpha_x rndg rndx (ring.length - 1) *
              signer_wg_GGXG Hs Hnr m ring C' T ki xp f q),
        r_x := ((List.range ring.length).map rndx).set pi
          (alpha_x - signer_chain_GGXG hp Hs Hnr m ring C' T ki xp f x q pi alpha_g
            alpha_x rndg rndx (ring.length - 1) *
              signer_wx_GGXG Hs Hnr m ring C' T ki x),
        K1 := smul (c_scalar_1div8 * f) (ki_base_GGXG hp ring pi),
        K2 := smul (c_scalar_1div8 * x) (ki_base_GGXG hp ring pi),
        K3 := smul (c_scalar_1div8 * q) (ki_base_GGXG hp ring pi) } := by
  have h1 : ¬ ring.length = 0 := by omega
  have h2 : ¬ ¬ pi < ring.length := not_not_intro hπ
  have h3 : ¬ ¬ smul xp (ki_base_GGXG hp ring pi) = ki := not_not_intro hki
  unfold generate_CLSAG_GGXG signer_chain_GGXG signer_wg_GGXG signer_wx_GGXG
  rw [if_neg h1, if_neg h2, if_neg h3]
  simp only [Except.ok.injEq, CLSAG_GGXG_signature.mk.injEq]
  refine ⟨?_, ?_, ?_, trivial, trivial, trivial⟩
  · rw [walk_fst, walk_snd _ pi ring.length hπ _ (ring.length - 1) (Nat.le_refl _)]
    by_cases hpi : pi = 0
    · subst hpi
      simp
    · rw [if_neg hpi, if_pos ⟨by omega, by omega⟩]
      rfl
  · rw [walk_fst]
  · rw [walk_fst]

/-- The signer's loop visits ring position 0 exactly once when the secret
index is nonzero, and never when it is zero (position 0 is then handled
after the loop); in total sig.c is assigned exactly once. -/
theorem walk_visits_zero_count (pi n : ℕ) (hπ : pi < n) :
    ((Finset.range (n - 1)).filter (fun j => idxW pi n j = 0)).card +
      (if pi = 0 then 1 else 0) = 1 := by
  by_cases hpi : pi = 0
  · subst hpi
    rw [if_pos rfl, Finset.filter_false_of_mem, Finset.card_empty]
    intro j hj
    rw [idxW_zero_iff 0 n j hπ (Finset.mem_range.mp hj)]
    simp
  · rw [if_neg hpi]
    rw [show (Finset.range (n - 1)).filter (fun j => idxW pi n j = 0)
        = {n - 1 - pi} from ?_]
    · simp
    · ext j
      simp only [Finset.mem_filter, Finset.mem_range, Finset.mem_singleton]
      constructor
      · rintro ⟨hj, h0⟩
        exact ((idxW_zero_iff pi n j hπ hj).mp h0).2
      · rintro rfl
        exact ⟨by omega, (idxW_zero_iff pi n _ hπ (by omega)).mpr ⟨by omega, rfl⟩⟩

/-- A successful GG signing call implies the signer's precondition checks
passed. -/
theorem generate_GG_ok_conditions (hp : Point → Point) (Hs : List ℕ → Scalar)
    (Hnr : List ℕ → ℕ) (m : ℕ) (ring : List CLSAG_GG_input_ref_t) (C' ki : Point)
    (x f : Scalar) (pi : ℕ) (alpha : Scalar) (rnd : ℕ → Scalar)
    (sig : CLSAG_GG_signature)
    (hsig : generate_CLSAG_GG hp Hs Hnr m ring C' ki x f pi alpha rnd = .ok sig) :
    pi < ring.length ∧ smul x (ki_base_GG hp ring pi) = ki := by
  unfold generate_CLSAG_GG at hsig
  by_cases h1 : ring.length = 0
  · rw [if_pos h1] at hsig
    exact Except.noConfusion hsig
  rw [if_neg h1] at hsig
  by_cases h2 : ¬ pi < ring.length
  · rw [if_pos h2] at hsig
    exact Except.noConfusion hsig
  rw [if_neg h2] at hsig
  by_cases h3 : ¬ smul x (ki_base_GG hp ring pi) = ki
  · rw [if_pos h3] at hsig
    exact Except.noConfusion hsig
  exact ⟨not_not.mp h2, not_not.mp h3⟩

/-- A successful GGXG signing call implies the signer's precondition checks
passed. -/
theorem generate_GGXG_ok_conditions (hp : Point → Point) (Hs : List ℕ → Scalar)
    (Hnr : List ℕ → ℕ) (m : ℕ) (ring : List CLSAG_GGXG_input_ref_t)
    (C' T ki : Point) (xp f x q : Scalar) (pi : ℕ) (alpha_g alpha_x : Scalar)
    (rndg rndx : ℕ → Scalar) (sig : CLSAG_GGXG_signature)
    (hsig : generate_CLSAG_GGXG hp Hs Hnr m ring C' T ki xp f x q pi alpha_g alpha_x
      rndg rndx = .ok sig) :
    pi < ring.length ∧ smul xp (ki_base_GGXG hp ring pi) = ki := by
  unfold generate_CLSAG_GGXG at hsig
  by_cases h1 : ring.length = 0
  · rw [if_pos h1] at hsig
    exact Except.noConfusion hsig
  rw [if_neg h1] at hsig
  by_cases h2 : ¬ pi < ring.length
  · rw [if_pos h2] at hsig
    exact Except.noConfusion hsig
  rw [if_neg h2] at hsig
  by_cases h3 : ¬ smul xp (ki_base_GGXG hp ring pi) = ki
  · rw [if_pos h3] at hsig
    exact Except.noConfusion hsig
  exact ⟨not_not.mp h2, not_not.mp h3⟩

/-- Abstract ring closure: if the verifier's step agrees with the signer's
step at every ring position other than the secret index, and the verifier's
step at the secret index recreates the signer's initial commitment
challenge, then walking the whole ring from the challenge at position 0
returns to it. -/
theorem ring_close (stepS stepV : Scalar → ℕ → Scalar) (pi n : ℕ) (hπ : pi < n)
    (c0 : Scalar)
    (hagree : ∀ i, i < n → ¬ i = pi → ∀ c, stepS c i = stepV c i)
    (hclose : stepV (chainF stepS (idxW pi n) c0 (n - 1)) pi = c0) :
    chainF stepV (fun k => k) (chainF stepS (idxW pi n) c0 (n - 1 - pi)) n
      = chainF stepS (idxW pi n) c0 (n - 1 - pi) := by
  have hn : 0 < n := by omega
  have hSS : ∀ j, j ≤ n - 1 →
      chainF stepS (idxW pi n) c0 j = chainF stepV (idxW pi n) c0 j := by
    intro j hj
    exact chainF_congr stepS stepV (idxW pi n) c0 j (n - 1) hj
      (fun k hk c => hagree _ (idxW_lt pi n k hn) (idxW_ne pi n k hπ hk) c)
  have hcyc : chainF stepV (idxW pi n) c0 n = c0 := by
    rw [chainF_succ_of_pos stepV (idxW pi n) c0 n hn, idxW_last pi n hπ,
      ← hSS (n - 1) (Nat.le_refl _)]
    exact hclose
  have hper := chainF_period stepV (idxW pi n) c0 n hcyc (idxW_period pi n)
  have hshift : ∀ k, k ≤ n →
      chainF stepV (fun t => t) (chainF stepV (idxW pi n) c0 (n - 1 - pi)) k
        = chainF stepV (idxW pi n) c0 (n - 1 - pi + k) := by
    intro k
    induction k with
    | zero => intro _; rfl
    | succ k ih =>
      intro hk
      simp only [chainF, Nat.add_eq]
      rw [ih (by omega), idxW_shift pi n k hπ (by omega)]
  rw [hSS (n - 1 - pi) (by omega), hshift n (Nat.le_refl _), hper (n - 1 - pi)]

/-- Completeness of CLSAG-GG: with consistent per-layer secrets, a
signature produced by the signer verifies when the verifier is handed the
div8 encoding of the signer's pseudo-output commitment. -/
theorem completeness_GG (hp : Point → Point) (Hs : List ℕ → Scalar) (Hnr : List ℕ → ℕ)
    (m : ℕ) (ring : List CLSAG_GG_input_ref_t) (C' ki : Point) (x f : Scalar)
    (pi : ℕ) (alpha : Scalar) (rnd : ℕ → Scalar) (sig : CLSAG_GG_signature)
    (hπ : pi < ring.length)
    (hst : (ring.getD pi default).stealth_address = smul x c_point_G)
    (ham : mul8 ((ring.getD pi default).amount_commitment) - C' = smul f c_point_G)
    (hkb : is_in_main_subgroup (ki_base_GG hp ring pi) = true)
    (hki : smul x (ki_base_GG hp ring pi) = ki)
    (hsig : generate_CLSAG_GG hp Hs Hnr m ring C' ki x f pi alpha rnd = .ok sig) :
    verify_CLSAG_GG hp Hs Hnr m ring (smul c_scalar_1div8 C') ki sig = .ok true := by
  rw [generate_CLSAG_GG_ok hp Hs Hnr m ring C' ki x f pi alpha rnd hπ hki] at hsig
  obtain rfl := (Except.ok.inj hsig).symm
  have hC'm : is_in_main_subgroup C' = true := by
    rw [show C' = mul8 ((ring.getD pi default).amount_commitment) - smul f c_point_G
      by rw [← ham]; ring]
    exact sub_mem _ _ (mul8_mem _) (smul_mem _ _ G_mem)
  have hCpt : mul8 (smul c_scalar_1div8 C') = C' := mul8_inv8 _ hC'm
  have hrlen : (((List.range ring.length).map rnd).set pi
      (alpha - signer_chain_GG hp Hs Hnr m ring C' ki x f pi alpha rnd
        (ring.length - 1) * signer_w_GG Hs Hnr m ring C' ki x f)).length
      = ring.length := by
    simp
  unfold verify_CLSAG_GG
  rw [if_neg (by omega : ¬ ring.length = 0),
    if_neg (not_not_intro hrlen.symm),
    if_neg (not_not_intro (by rw [← hki]; exact smul_mem _ _ hkb))]
  congr 1
  unfold verify_core_GG
  rw [decide_eq_true_eq]
  rw [show input_items_GG_ver m ring (smul c_scalar_1div8 C') ki
    = input_items_GG_gen m ring C' ki from rfl]
  rw [hCpt, ← hki]
  simp only []
  rw [chainF_foldl_range]
  unfold signer_chain_GG signer_w_GG
  simp only []
  set kib := ki_base_GG hp ring pi with hkib
  set ih := Hnr (input_items_GG_gen m ring C' (smul x kib)) with hih
  set a0 := agg_coeff Hs CRYPTO_HDS_CLSAG_GG_LAYER_0 ih with ha0
  set a1 := agg_coeff Hs CRYPTO_HDS_CLSAG_GG_LAYER_1 ih with ha1
  set w := a0 * x + a1 * f with hw
  set stepS := chal_block_GG hp Hs ih ring (W_pub_keys_GG a0 a1 ring C')
    (W_key_image_GG a0 a1 (smul x kib) (mul8 (smul (c_scalar_1div8 * f) kib))) rnd
    with hstepS
  set c0 := cinit_GG Hs ih alpha kib with hc0
  set rc := alpha - chainF stepS (idxW pi ring.length) c0 (ring.length - 1) * w with hrc
  set rl := ((List.range ring.length).map rnd).set pi rc with hrl
  set stepV := chal_block_GG hp Hs ih ring (W_pub_keys_GG a0 a1 ring C')
    (W_key_image_GG a0 a1 (smul x kib) (mul8 (smul (c_scalar_1div8 * f) kib)))
    (fun i => rl.getD i 0) with hstepV
  apply ring_close stepS stepV pi ring.length hπ c0
  · intro i hi hne c
    rw [hstepS, hstepV]
    simp only [chal_block_GG]
    rw [show rl.getD i 0 = rnd i by
      rw [hrl, getD_set_ne _ _ _ _ (fun h => hne h.symm), getD_map_range _ _ _ hi]]
  · have hrpi : rl.getD pi 0 = rc := by
      rw [hrl]
      exact getD_set_self _ _ _ (by simpa using hπ)
    have hWpi : W_pub_keys_GG a0 a1 ring C' pi = smul w c_point_G := by
      unfold W_pub_keys_GG
      rw [hst, ham, smul_smul_mem a0 x _ G_mem, smul_smul_mem a1 f _ G_mem,
        hw, ← smul_add_mem _ _ _ G_mem]
    have hWki : W_key_image_GG a0 a1 (smul x kib)
        (mul8 (smul (c_scalar_1div8 * f) kib)) = smul w kib := by
      unfold W_key_image_GG
      rw [mul8_smul_inv8 f kib hkb, smul_smul_mem a0 x _ hkb,
        smul_smul_mem a1 f _ hkb, hw, ← smul_add_mem _ _ _ hkb]
    rw [hstepV]
    simp only [chal_block_GG]
    rw [hrpi, hWpi, hWki, hrc]
    rw [show hp ((ring.getD pi default).stealth_address) = kib from hkib.symm]
    rw [closure_pt c_point_G G_mem alpha _ w, closure_pt kib hkb alpha _ w]
    rw [hc0]
    simp only [cinit_GG]

/-- Completeness of CLSAG-GGXG: with consistent per-layer secrets, a
signature produced by the signer verifies when the verifier is handed the
div8 encodings of the signer's commitments C and T. -/
theorem completeness_GGXG (hp : Point → Point) (Hs : List ℕ → Scalar) (Hnr : List ℕ → ℕ)
    (m : ℕ) (ring : List CLSAG_GGXG_input_ref_t) (C' T ki : Point)
    (xp f x q : Scalar) (pi : ℕ) (alpha_g alpha_x : Scalar)
    (rndg rndx : ℕ → Scalar) (sig : CLSAG_GGXG_signature)
    (hπ : pi < ring.length)
    (hst : (ring.getD pi default).stealth_address = smul xp c_point_G)
    (ham : mul8 ((ring.getD pi default).amount_commitment) - C' = smul f c_point_G)
    (hq : mul8 ((ring.getD pi default).concealing_point) = smul q c_point_G)
    (hT : T - mul8 ((ring.getD pi default).amount_commitment)
      - mul8 ((ring.getD pi default).concealing_point) = smul x c_point_X)
    (hkb : is_in_main_subgroup (ki_base_GGXG hp ring pi) = true)
    (hki : smul xp (ki_base_GGXG hp ring pi) = ki)
    (hsig : generate_CLSAG_GGXG hp Hs Hnr m ring C' T ki xp f x q pi alpha_g alpha_x
      rndg rndx = .ok sig) :
    verify_CLSAG_GGXG hp Hs Hnr m ring (smul c_scalar_1div8 C')
      (smul c_scalar_1div8 T) ki sig = .ok true := by
  rw [generate_CLSAG_GGXG_ok hp Hs Hnr m ring C' T ki xp f x q pi alpha_g alpha_x
    rndg rndx hπ hki] at hsig
  obtain rfl := (Except.ok.inj hsig).symm
  have hC'm : is_in_main_subgroup C' = true := by
    rw [show C' = mul8 ((ring.getD pi default).amount_commitment) - smul f c_point_G
      by rw [← ham]; ring]
    exact sub_mem _ _ (mul8_mem _) (smul_mem _ _ G_mem)
  have hTm : is_in_main_subgroup T = true := by
    rw [show T = mul8 ((ring.getD pi default).amount_commitment) +
      mul8 ((ring.getD pi default).concealing_point) + smul x c_point_X
      by rw [← hT]; ring]
    exact add_mem _ _ (add_mem _ _ (mul8_mem _) (mul8_mem _)) (smul_mem _ _ X_mem)
  have hCpt : mul8 (smul c_scalar_1div8 C') = C' := mul8_inv8 _ hC'm
  have hTpt : mul8 (smul c_scalar_1div8 T) = T := mul8_inv8 _ hTm
  have hglen : (((List.range ring.length).map rndg).set pi
      (alpha_g - signer_chain_GGXG hp Hs Hnr m ring C' T ki xp f x q pi alpha_g alpha_x
        rndg rndx (ring.length - 1) *
          signer_wg_GGXG Hs Hnr m ring C' T ki xp f q)).length = ring.length := by
    simp
  have hxlen : (((List.range ring.length).map rndx).set pi
      (alpha_x - signer_chain_GGXG hp Hs Hnr m ring C' T ki xp f x q pi alpha_g alpha_x
        rndg rndx (ring.length - 1) *
          signer_wx_GGXG Hs Hnr m ring C' T ki x)).length = ring.length := by
    simp
  unfold verify_CLSAG_GGXG
  rw [if_neg (by omega : ¬ ring.length = 0),
    if_neg (not_not_intro hglen.symm),
    if_neg (not_not_intro hxlen.symm),
    if_neg (not_not_intro (by rw [← hki]; exact smul_mem _ _ hkb))]
  congr 1
  unfold verify_core_GGXG
  rw [decide_eq_true_eq]
  rw [show input_items_GGXG_ver m ring (smul c_scalar_1div8 C')
    (smul c_scalar_1div8 T) ki = input_items_GGXG_gen m ring C' T ki from rfl]
  rw [hCpt, hTpt, ← hki]
  simp only []
  rw [chainF_foldl_range]
  unfold signer_chain_GGXG signer_wg_GGXG signer_wx_GGXG
  simp only []
  set kib := ki_base_GGXG hp ring pi with hkib
  set ih := Hnr (input_items_GGXG_gen m ring C' T (smul xp kib)) with hih
  set a0 := agg_coeff Hs CRYPTO_HDS_CLSAG_GGXG_LAYER_0 ih with ha0
  set a1 := agg_coeff Hs CRYPTO_HDS_CLSAG_GGXG_LAYER_1 ih with ha1
  set a2 := agg_coeff Hs CRYPTO_HDS_CLSAG_GGXG_LAYER_2 ih with ha2
  set a3 := agg_coeff Hs CRYPTO_HDS_CLSAG_GGXG_LAYER_3 ih with ha3
  set wg := a0 * xp + a1 * f + a3 * q with hwg
  set wx := a2 * x with hwx
  set stepS := chal_block_GGXG hp Hs ih ring
    (W_pub_keys_g_GGXG a0 a1 a3 ring C') (W_pub_keys_x_GGXG a2 ring T)
    (W_key_image_g_GGXG a0 a1 a3 (smul xp kib)
      (mul8 (smul (c_scalar_1div8 * f) kib)) (mul8 (smul (c_scalar_1div8 * q) kib)))
    (W_key_image_x_GGXG a2 (mul8 (smul (c_scalar_1div8 * x) kib))) rndg rndx
    with hstepS
  set c0 := cinit_GGXG Hs ih alpha_g alpha_x kib with hc0
  set rcg := alpha_g - chainF stepS (idxW pi ring.length) c0 (ring.length - 1) * wg
    with hrcg
  set rcx := alpha_x - chainF stepS (idxW pi ring.length) c0 (ring.length - 1) * wx
    with hrcx
  set rlg := ((List.range ring.length).map rndg).set pi rcg with hrlg
  set rlx := ((List.range ring.length).map rndx).set pi rcx with hrlx
  set stepV := chal_block_GGXG hp Hs ih ring
    (W_pub_keys_g_GGXG a0 a1 a3 ring C') (W_pub_keys_x_GGXG a2 ring T)
    (W_key_image_g_GGXG a0 a1 a3 (smul xp kib)
      (mul8 (smul (c_scalar_1div8 * f) kib)) (mul8 (smul (c_scalar_1div8 * q) kib)))
    (W_key_image_x_GGXG a2 (mul8 (smul (c_scalar_1div8 * x) kib)))
    (fun i => rlg.getD i 0) (fun i => rlx.getD i 0) with hstepV
  apply ring_close stepS stepV pi ring.length hπ c0
  · intro i hi hne c
    rw [hstepS, hstepV]
    simp only [chal_block_GGXG]
    rw [show rlg.getD i 0 = rndg i by
      rw [hrlg, getD_set_ne _ _ _ _ (fun h => hne h.symm), getD_map_range _ _ _ hi]]
    rw [show rlx.getD i 0 = rndx i by
      rw [hrlx, getD_set_ne _ _ _ _ (fun h => hne h.symm), getD_map_range _ _ _ hi]]
  · have hrgpi : rlg.getD pi 0 = rcg := by
      rw [hrlg]
      exact getD_set_self _ _ _ (by simpa using hπ)
    have hrxpi : rlx.getD pi 0 = rcx := by
      rw [hrlx]
      exact getD_set_self _ _ _ (by simpa using hπ)
    have hWg : W_pub_keys_g_GGXG a0 a1 a3 ring C' pi = smul wg c_point_G := by
      unfold W_pub_keys_g_GGXG
      rw [hst, ham, hq, smul_smul_mem a0 xp _ G_mem, smul_smul_mem a1 f _ G_mem,
        smul_smul_mem a3 q _ G_mem, hwg, ← smul_add_mem _ _ _ G_mem,
        ← smul_add_mem _ _ _ G_mem]
    have hWx : W_pub_keys_x_GGXG a2 ring T pi = smul wx c_point_X := by
      unfold W_pub_keys_x_GGXG
      rw [hT, smul_smul_mem a2 x _ X_mem, hwx]
    have hWkig : W_key_image_g_GGXG a0 a1 a3 (smul xp kib)
        (mul8 (smul (c_scalar_1div8 * f) kib))
        (mul8 (smul (c_scalar_1div8 * q) kib)) = smul wg kib := by
      unfold W_key_image_g_GGXG
      rw [mul8_smul_inv8 f kib hkb, mul8_smul_inv8 q kib hkb,
        smul_smul_mem a0 xp _ hkb, smul_smul_mem a1 f _ hkb,
        smul_smul_mem a3 q _ hkb, hwg, ← smul_add_mem _ _ _ hkb,
        ← smul_add_mem _ _ _ hkb]
    have hWkix : W_key_image_x_GGXG a2 (mul8 (smul (c_scalar_1div8 * x) kib))
        = smul wx kib := by
      unfold W_key_image_x_GGXG
      rw [mul8_smul_inv8 x kib hkb, smul_smul_mem a2 x _ hkb, hwx]
    rw [hstepV]
    simp only [chal_block_GGXG]
    rw [hrgpi, hrxpi, hWg, hWx, hWkig, hWkix, hrcg, hrcx]
    rw [show hp ((ring.getD pi default).stealth_address) = kib from hkib.symm]
    rw [closure_pt c_point_G G_mem alpha_g _ wg, closure_pt kib hkb alpha_g _ wg,
      closure_pt c_point_X X_mem alpha_x _ wx, closure_pt kib hkb alpha_x _ wx]
    rw [hc0]
    simp only [cinit_GGXG]

/-- C1: Completeness round-trip: for every message, ring of size n >= 1,
secret index pi < n, per-layer secrets consistent with ki, full-scale
commitment point C (and T for GGXG), and every choice of the random scalars
sampled during signing, if the verifier's commitment arguments are supplied
as the canonical encoding of 1/8 times the signer's point, then
verify_CLSAG_GG returns true on the signature produced by
generate_CLSAG_GG, and verify_CLSAG_GGXG returns true on the signature
produced by generate_CLSAG_GGXG. -/
theorem C1_completeness_round_trip
    (hp : Point → Point) (Hs : List ℕ → Scalar) (Hnr : List ℕ → ℕ)
    (m : ℕ) (ring : List CLSAG_GG_input_ref_t) (C' ki : Point) (x f : Scalar)
    (pi : ℕ) (alpha : Scalar) (rnd : ℕ → Scalar) (sig : CLSAG_GG_signature)
    (hπ : pi < ring.length)
    (hst : (ring.getD pi default).stealth_address = smul x c_point_G)
    (ham : mul8 ((ring.getD pi default).amount_commitment) - C' = smul f c_point_G)
    (hkb : is_in_main_subgroup (ki_base_GG hp ring pi) = true)
    (hki : smul x (ki_base_GG hp ring pi) = ki)
    (hsig : generate_CLSAG_GG hp Hs Hnr m ring C' ki x f pi alpha rnd = .ok sig)
    (m2 : ℕ) (ring2 : List CLSAG_GGXG_input_ref_t) (C2 T2 ki2 : Point)
    (xp f2 x2 q2 : Scalar) (pi2 : ℕ) (alpha_g alpha_x : Scalar)
    (rndg rndx : ℕ → Scalar) (sig2 : CLSAG_GGXG_signature)
    (hπ2 : pi2 < ring2.length)
    (hst2 : (ring2.getD pi2 default).stealth_address = smul xp c_point_G)
    (ham2 : mul8 ((ring2.getD pi2 default).amount_commitment) - C2 = smul f2 c_point_G)
    (hq2 : mul8 ((ring2.getD pi2 default).concealing_point) = smul q2 c_point_G)
    (hT2 : T2 - mul8 ((ring2.getD pi2 default).amount_commitment)
      - mul8 ((ring2.getD pi2 default).concealing_point) = smul x2 c_point_X)
    (hkb2 : is_in_main_subgroup (ki_base_GGXG hp ring2 pi2) = true)
    (hki2 : smul xp (ki_base_GGXG hp ring2 pi2) = ki2)
    (hsig2 : generate_CLSAG_GGXG hp Hs Hnr m2 ring2 C2 T2 ki2 xp f2 x2 q2 pi2
      alpha_g alpha_x rndg rndx = .ok sig2) :
    verify_CLSAG_GG hp Hs Hnr m ring (smul c_scalar_1div8 C') ki sig = .ok true ∧
    verify_CLSAG_GGXG hp Hs Hnr m2 ring2 (smul c_scalar_1div8 C2)
      (smul c_scalar_1div8 T2) ki2 sig2 = .ok true :=
  ⟨completeness_GG hp Hs Hnr m ring C' ki x f pi alpha rnd sig hπ hst ham hkb hki hsig,
   completeness_GGXG hp Hs Hnr m2 ring2 C2 T2 ki2 xp f2 x2 q2 pi2 alpha_g alpha_x
     rndg rndx sig2 hπ2 hst2 ham2 hq2 hT2 hkb2 hki2 hsig2⟩

/-- Witness for C1 at concrete inputs: a GG signing with ring size 1 and a
GGXG signing with ring size 2 and secret index 1, both verifying. -/
theorem C1_witness :
    verify_CLSAG_GG hpW HsW HnrW 5 [⟨16, 1⟩] (smul c_scalar_1div8 16) 16
      ⟨1, [1], 8⟩ = .ok true ∧
    verify_CLSAG_GGXG hpW HsW HnrW 7 [⟨1, 2, 3⟩, ⟨8, 2, 2⟩]
      (smul c_scalar_1div8 8) (smul c_scalar_1div8 16) 16
      ⟨2, [1, 2], [2, 0], 8, 16, 16⟩ = .ok true :=
  C1_completeness_round_trip hpW HsW HnrW
    5 [⟨16, 1⟩] 16 16 2 2 0 2 (fun _ => 1) ⟨1, [1], 8⟩
    (by decide) (by decide) (by decide) (by decide) (by decide) (by decide)
    7 [⟨1, 2, 3⟩, ⟨8, 2, 2⟩] 8 16 16 1 1 2 2 1 1 2
    (fun i => (i : Scalar) + 1) (fun i => (i : Scalar) + 2)
    ⟨2, [1, 2], [2, 0], 8, 16, 16⟩
    (by decide) (by decide) (by decide) (by decide) (by decide) (by decide)
    (by decide) (by decide)

/-- C2: Signer raises-iff: generate_CLSAG_GG and generate_CLSAG_GGXG fail
with a fatal error surfaced to the caller if and only if the ring is empty,
or the secret index is out of range, or the recomputed key image
(first-layer secret times hp(ring[pi].stealth_address)) differs from
decode(ki); whenever all three preconditions hold the call completes and
returns true (here: returns the signature). -/
theorem C2_signer_raises_iff
    (hp : Point → Point) (Hs : List ℕ → Scalar) (Hnr : List ℕ → ℕ)
    (m : ℕ) (ring : List CLSAG_GG_input_ref_t) (C' ki : Point) (x f : Scalar)
    (pi : ℕ) (alpha : Scalar) (rnd : ℕ → Scalar)
    (m2 : ℕ) (ring2 : List CLSAG_GGXG_input_ref_t) (C2 T2 ki2 : Point)
    (xp f2 x2 q2 : Scalar) (pi2 : ℕ) (alpha_g alpha_x : Scalar)
    (rndg rndx : ℕ → Scalar) :
    (isOkE (generate_CLSAG_GG hp Hs Hnr m ring C' ki x f pi alpha rnd) = true ↔
      ¬(ring.length = 0 ∨ ¬ pi < ring.length ∨
        ¬ smul x (ki_base_GG hp ring pi) = ki)) ∧
    (isOkE (generate_CLSAG_GGXG hp Hs Hnr m2 ring2 C2 T2 ki2 xp f2 x2 q2 pi2
        alpha_g alpha_x rndg rndx) = true ↔
      ¬(ring2.length = 0 ∨ ¬ pi2 < ring2.length ∨
        ¬ smul xp (ki_base_GGXG hp ring2 pi2) = ki2)) := by
  constructor
  · unfold generate_CLSAG_GG
    by_cases h1 : ring.length = 0
    · rw [if_pos h1]
      exact iff_of_false (by simp [isOkE]) (by tauto)
    rw [if_neg h1]
    by_cases h2 : ¬ pi < ring.length
    · rw [if_pos h2]
      exact iff_of_false (by simp [isOkE]) (by tauto)
    rw [if_neg h2]
    by_cases h3 : ¬ smul x (ki_base_GG hp ring pi) = ki
    · rw [if_pos h3]
      exact iff_of_false (by simp [isOkE]) (by tauto)
    rw [if_neg h3]
    exact iff_of_true (by simp [isOkE]) (by tauto)
  · unfold generate_CLSAG_GGXG
    by_cases h1 : ring2.length = 0
    · rw [if_pos h1]
      exact iff_of_false (by simp [isOkE]) (by tauto)
    rw [if_neg h1]
    by_cases h2 : ¬ pi2 < ring2.length
    · rw [if_pos h2]
      exact iff_of_false (by simp [isOkE]) (by tauto)
    rw [if_neg h2]
    by_cases h3 : ¬ smul xp (ki_base_GGXG hp ring2 pi2) = ki2
    · rw [if_pos h3]
      exact iff_of_false (by simp [isOkE]) (by tauto)
    rw [if_neg h3]
    exact iff_of_true (by simp [isOkE]) (by tauto)

/-- C9: Output shape: every signature produced by a successful call to
generate_CLSAG_GG has exactly n = ring size response scalars, and every
signature from a successful generate_CLSAG_GGXG has n scalars in each of
r_g and r_x, regardless of the sig argument's prior contents (the model
builds the signature afresh, as the source clears sig.r first). -/
theorem C9_output_shape
    (hp : Point → Point) (Hs : List ℕ → Scalar) (Hnr : List ℕ → ℕ)
    (m : ℕ) (ring : List CLSAG_GG_input_ref_t) (C' ki : Point) (x f : Scalar)
    (pi : ℕ) (alpha : Scalar) (rnd : ℕ → Scalar) (sig : CLSAG_GG_signature)
    (hsig : generate_CLSAG_GG hp Hs Hnr m ring C' ki x f pi alpha rnd = .ok sig)
    (m2 : ℕ) (ring2 : List CLSAG_GGXG_input_ref_t) (C2 T2 ki2 : Point)
    (xp f2 x2 q2 : Scalar) (pi2 : ℕ) (alpha_g alpha_x : Scalar)
    (rndg rndx : ℕ → Scalar) (sig2 : CLSAG_GGXG_signature)
    (hsig2 : generate_CLSAG_GGXG hp Hs Hnr m2 ring2 C2 T2 ki2 xp f2 x2 q2 pi2
      alpha_g alpha_x rndg rndx = .ok sig2) :
    sig.r.length = ring.length ∧
    sig2.r_g.length = ring2.length ∧ sig2.r_x.length = ring2.length := by
  obtain ⟨hπ, hki⟩ := generate_GG_ok_conditions hp Hs Hnr m ring C' ki x f pi
    alpha rnd sig hsig
  obtain ⟨hπ2, hki2⟩ := generate_GGXG_ok_conditions hp Hs Hnr m2 ring2 C2 T2 ki2
    xp f2 x2 q2 pi2 alpha_g alpha_x rndg rndx sig2 hsig2
  rw [generate_CLSAG_GG_ok hp Hs Hnr m ring C' ki x f pi alpha rnd hπ hki] at hsig
  rw [generate_CLSAG_GGXG_ok hp Hs Hnr m2 ring2 C2 T2 ki2 xp f2 x2 q2 pi2 alpha_g
    alpha_x rndg rndx hπ2 hki2] at hsig2
  obtain rfl := (Except.ok.inj hsig).symm
  obtain rfl := (Except.ok.inj hsig2).symm
  refine ⟨by simp, by simp, by simp⟩

/-- Witness for C9 at the concrete inputs of the completeness witness. -/
theorem C9_witness :
    (⟨1, [1], 8⟩ : CLSAG_GG_signature).r.length =
      ([⟨16, 1⟩] : List CLSAG_GG_input_ref_t).length ∧
    (⟨2, [1, 2], [2, 0], 8, 16, 16⟩ : CLSAG_GGXG_signature).r_g.length =
      ([⟨1, 2, 3⟩, ⟨8, 2, 2⟩] : List CLSAG_GGXG_input_ref_t).length ∧
    (⟨2, [1, 2], [2, 0], 8, 16, 16⟩ : CLSAG_GGXG_signature).r_x.length =
      ([⟨1, 2, 3⟩, ⟨8, 2, 2⟩] : List CLSAG_GGXG_input_ref_t).length :=
  C9_output_shape hpW HsW HnrW 5 [⟨16, 1⟩] 16 16 2 2 0 2 (fun _ => 1)
    ⟨1, [1], 8⟩ (by decide)
    7 [⟨1, 2, 3⟩, ⟨8, 2, 2⟩] 8 16 16 1 1 2 2 1 1 2
    (fun i => (i : Scalar) + 1) (fun i => (i : Scalar) + 2)
    ⟨2, [1, 2], [2, 0], 8, 16, 16⟩ (by decide)

/-- C10: Implicit div8 transcript convention: the input transcript absorbed
by the verifier equals the one absorbed by the signer if and only if the
verifier's pseudo-output commitment argument is (bytewise) the canonical
encoding of 1/8 times the signer's commitment point, and likewise for T in
the GGXG scheme; the signer absorbs these as encoded points scaled by 1/8
while the verifier absorbs its supplied 32-byte arguments raw. -/
theorem C10_div8_transcript_convention
    (m : ℕ) (ring : List CLSAG_GG_input_ref_t) (C' P ki : Point)
    (m2 : ℕ) (ring2 : List CLSAG_GGXG_input_ref_t) (C2 T2 P2 Q2 ki2 : Point) :
    (input_items_GG_ver m ring P ki = input_items_GG_gen m ring C' ki ↔
      P = smul c_scalar_1div8 C') ∧
    (input_items_GGXG_ver m2 ring2 P2 Q2 ki2 =
        input_items_GGXG_gen m2 ring2 C2 T2 ki2 ↔
      (P2 = smul c_scalar_1div8 C2 ∧ Q2 = smul c_scalar_1div8 T2)) := by
  constructor
  · unfold input_items_GG_ver input_items_GG_gen
    constructor
    · intro h
      have h2 := List.append_cancel_left ((List.cons.injEq _ _ _ _).mp h).2
      simp only [List.cons.injEq, and_true] at h2
      exact encP_inj _ _ h2
    · rintro rfl
      rfl
  · unfold input_items_GGXG_ver input_items_GGXG_gen
    constructor
    · intro h
      have h2 := List.append_cancel_left ((List.cons.injEq _ _ _ _).mp h).2
      simp only [List.cons.injEq, and_true] at h2
      exact ⟨encP_inj _ _ h2.1, encP_inj _ _ h2.2⟩
    · rintro ⟨rfl, rfl⟩
      rfl

/-- Outcome trichotomy of the GG verifier: an error exactly on a
precondition breach, and otherwise the boolean of the ring-walk check. -/
theorem verify_GG_outcomes (hp : Point → Point) (Hs : List ℕ → Scalar)
    (Hnr : List ℕ → ℕ) (m : ℕ) (ring : List CLSAG_GG_input_ref_t) (Cp ki : Point)
    (sig : CLSAG_GG_signature) :
    ((∃ e, verify_CLSAG_GG hp Hs Hnr m ring Cp ki sig = .error e) ↔
      (ring.length = 0 ∨ ¬ ring.length = sig.r.length ∨
        ¬ is_in_main_subgroup ki = true)) ∧
    (verify_CLSAG_GG hp Hs Hnr m ring Cp ki sig = .ok true ↔
      (¬(ring.length = 0 ∨ ¬ ring.length = sig.r.length ∨
          ¬ is_in_main_subgroup ki = true) ∧
        verify_core_GG hp Hs Hnr m ring Cp ki sig = true)) ∧
    (verify_CLSAG_GG hp Hs Hnr m ring Cp ki sig = .ok false ↔
      (¬(ring.length = 0 ∨ ¬ ring.length = sig.r.length ∨
          ¬ is_in_main_subgroup ki = true) ∧
        verify_core_GG hp Hs Hnr m ring Cp ki sig = false)) := by
  unfold verify_CLSAG_GG
  by_cases h1 : ring.length = 0
  · rw [if_pos h1]
    exact ⟨iff_of_true ⟨_, rfl⟩ (by tauto), iff_of_false (by simp) (by tauto),
      iff_of_false (by simp) (by tauto)⟩
  rw [if_neg h1]
  by_cases h2 : ¬ ring.length = sig.r.length
  · rw [if_pos h2]
    exact ⟨iff_of_true ⟨_, rfl⟩ (by tauto), iff_of_false (by simp) (by tauto),
      iff_of_false (by simp) (by tauto)⟩
  rw [if_neg h2]
  by_cases h3 : ¬ is_in_main_subgroup ki = true
  · rw [if_pos h3]
    exact ⟨iff_of_true ⟨_, rfl⟩ (by tauto), iff_of_false (by simp) (by tauto),
      iff_of_false (by simp) (by tauto)⟩
  rw [if_neg h3]
  refine ⟨iff_of_false (by simp) (by tauto), ?_, ?_⟩
  · constructor
    · intro h
      exact ⟨by tauto, Except.ok.inj h⟩
    · rintro ⟨-, hc⟩
      rw [hc]
  · constructor
    · intro h
      exact ⟨by tauto, Except.ok.inj h⟩
    · rintro ⟨-, hc⟩
      rw [hc]

/-- Outcome trichotomy of the GGXG verifier. -/
theorem verify_GGXG_outcomes (hp : Point → Point) (Hs : List ℕ → Scalar)
    (Hnr : List ℕ → ℕ) (m : ℕ) (ring : List CLSAG_GGXG_input_ref_t)
    (Cp Tp ki : Point) (sig : CLSAG_GGXG_signature) :
    ((∃ e, verify_CLSAG_GGXG hp Hs Hnr m ring Cp Tp ki sig = .error e) ↔
      (ring.length = 0 ∨ ¬ ring.length = sig.r_g.length ∨
        ¬ ring.length = sig.r_x.length ∨ ¬ is_in_main_subgroup ki = true)) ∧
    (verify_CLSAG_GGXG hp Hs Hnr m ring Cp Tp ki sig = .ok true ↔
      (¬(ring.length = 0 ∨ ¬ ring.length = sig.r_g.length ∨
          ¬ ring.length = sig.r_x.length ∨ ¬ is_in_main_subgroup ki = true) ∧
        verify_core_GGXG hp Hs Hnr m ring Cp Tp ki sig = true)) ∧
    (verify_CLSAG_GGXG hp Hs Hnr m ring Cp Tp ki sig = .ok false ↔
      (¬(ring.length = 0 ∨ ¬ ring.length = sig.r_g.length ∨
          ¬ ring.length = sig.r_x.length ∨ ¬ is_in_main_subgroup ki = true) ∧
        verify_core_GGXG hp Hs Hnr m ring Cp Tp ki sig = false)) := by
  unfold verify_CLSAG_GGXG
  by_cases h1 : ring.length = 0
  · rw [if_pos h1]
    exact ⟨iff_of_true ⟨_, rfl⟩ (by tauto), iff_of_false (by simp) (by tauto),
      iff_of_false (by simp) (by tauto)⟩
  rw [if_neg h1]
  by_cases h2 : ¬ ring.length = sig.r_g.length
  · rw [if_pos h2]
    exact ⟨iff_of_true ⟨_, rfl⟩ (by tauto), iff_of_false (by simp) (by tauto),
      iff_of_false (by simp) (by tauto)⟩
  rw [if_neg h2]
  by_cases h3 : ¬ ring.length = sig.r_x.length
  · rw [if_pos h3]
    exact ⟨iff_of_true ⟨_, rfl⟩ (by tauto), iff_of_false (by simp) (by tauto),
      iff_of_false (by simp) (by tauto)⟩
  rw [if_neg h3]
  by_cases h4 : ¬ is_in_main_subgroup ki = true
  · rw [if_pos h4]
    exact ⟨iff_of_true ⟨_, rfl⟩ (by tauto), iff_of_false (by simp) (by tauto),
      iff_of_false (by simp) (by tauto)⟩
  rw [if_neg h4]
  refine ⟨iff_of_false (by simp) (by tauto), ?_, ?_⟩
  · constructor
    · intro h
      exact ⟨by tauto, Except.ok.inj h⟩
    · rintro ⟨-, hc⟩
      rw [hc]
  · constructor
    · intro h
      exact ⟨by tauto, Except.ok.inj h⟩
    · rintro ⟨-, hc⟩
      rw [hc]

/-- C3 counterexample: on an empty ring both verifiers surface a fatal
error rather than returning the invalid result false, refuting the claim
that every precondition breach yields the return value false. -/
theorem C3_counterexample :
    verify_CLSAG_GG hpW HsW HnrW 0 [] 0 0 ⟨0, [], 0⟩ = .error "ring size is zero" ∧
    ¬ verify_CLSAG_GG hpW HsW HnrW 0 [] 0 0 ⟨0, [], 0⟩ = .ok false ∧
    verify_CLSAG_GGXG hpW HsW HnrW 0 [] 0 0 0 ⟨0, [], [], 0, 0, 0⟩ =
      .error "ring size is zero" ∧
    ¬ verify_CLSAG_GGXG hpW HsW HnrW 0 [] 0 0 0 ⟨0, [], [], 0, 0, 0⟩ = .ok false := by
  decide

/-- C3 amended: verify_CLSAG_GG and verify_CLSAG_GGXG surface a fatal
error (throw) exactly on a precondition breach (empty ring, response-count
mismatch, or ki outside the main subgroup); when no precondition is
breached they return a boolean, true exactly when the recomputed challenge
chain closes on sig.c, false exactly on final challenge mismatch. -/
theorem C3_verifier_error_vs_reject (hp : Point → Point) (Hs : List ℕ → Scalar)
    (Hnr : List ℕ → ℕ) (m : ℕ) (ring : List CLSAG_GG_input_ref_t) (Cp ki : Point)
    (sig : CLSAG_GG_signature)
    (m2 : ℕ) (ring2 : List CLSAG_GGXG_input_ref_t) (C2 T2 ki2 : Point)
    (sig2 : CLSAG_GGXG_signature) :
    ((∃ e, verify_CLSAG_GG hp Hs Hnr m ring Cp ki sig = .error e) ↔
      (ring.length = 0 ∨ ¬ ring.length = sig.r.length ∨
        ¬ is_in_main_subgroup ki = true)) ∧
    (verify_CLSAG_GG hp Hs Hnr m ring Cp ki sig = .ok true ↔
      (¬(ring.length = 0 ∨ ¬ ring.length = sig.r.length ∨
          ¬ is_in_main_subgroup ki = true) ∧
        verify_core_GG hp Hs Hnr m ring Cp ki sig = true)) ∧
    (verify_CLSAG_GG hp Hs Hnr m ring Cp ki sig = .ok false ↔
      (¬(ring.length = 0 ∨ ¬ ring.length = sig.r.length ∨
          ¬ is_in_main_subgroup ki = true) ∧
        verify_core_GG hp Hs Hnr m ring Cp ki sig = false)) ∧
    ((∃ e, verify_CLSAG_GGXG hp Hs Hnr m2 ring2 C2 T2 ki2 sig2 = .error e) ↔
      (ring2.length = 0 ∨ ¬ ring2.length = sig2.r_g.length ∨
        ¬ ring2.length = sig2.r_x.length ∨ ¬ is_in_main_subgroup ki2 = true)) ∧
    (verify_CLSAG_GGXG hp Hs Hnr m2 ring2 C2 T2 ki2 sig2 = .ok true ↔
      (¬(ring2.length = 0 ∨ ¬ ring2.length = sig2.r_g.length ∨
          ¬ ring2.length = sig2.r_x.length ∨ ¬ is_in_main_subgroup ki2 = true) ∧
        verify_core_GGXG hp Hs Hnr m2 ring2 C2 T2 ki2 sig2 = true)) ∧
    (verify_CLSAG_GGXG hp Hs Hnr m2 ring2 C2 T2 ki2 sig2 = .ok false ↔
      (¬(ring2.length = 0 ∨ ¬ ring2.length = sig2.r_g.length ∨
          ¬ ring2.length = sig2.r_x.length ∨ ¬ is_in_main_subgroup ki2 = true) ∧
        verify_core_GGXG hp Hs Hnr m2 ring2 C2 T2 ki2 sig2 = false)) := by
  obtain ⟨a1, a2, a3⟩ := verify_GG_outcomes hp Hs Hnr m ring Cp ki sig
  obtain ⟨b1, b2, b3⟩ := verify_GGXG_outcomes hp Hs Hnr m2 ring2 C2 T2 ki2 sig2
  exact ⟨a1, a2, a3, b1, b2, b3⟩

/-- C4: Early subgroup rejection: whenever decode(ki) is outside the main
subgroup, both verifiers reject with an error determined only by the ring
size and the response counts — never reaching the ring computation, and
independently of the ring contents and of the response scalar values. -/
theorem C4_early_subgroup_rejection (hp : Point → Point) (Hs : List ℕ → Scalar)
    (Hnr : List ℕ → ℕ) (m : ℕ) (ring : List CLSAG_GG_input_ref_t) (Cp ki : Point)
    (sig : CLSAG_GG_signature) (h : is_in_main_subgroup ki = false)
    (m2 : ℕ) (ring2 : List CLSAG_GGXG_input_ref_t) (C2 T2 ki2 : Point)
    (sig2 : CLSAG_GGXG_signature) (h2 : is_in_main_subgroup ki2 = false) :
    verify_CLSAG_GG hp Hs Hnr m ring Cp ki sig =
      (if ring.length = 0 then .error "ring size is zero"
       else if ¬ ring.length = sig.r.length then .error "ring size != r size"
       else .error "key image 0 does not belong to the main subgroup") ∧
    verify_CLSAG_GGXG hp Hs Hnr m2 ring2 C2 T2 ki2 sig2 =
      (if ring2.length = 0 then .error "ring size is zero"
       else if ¬ ring2.length = sig2.r_g.length then .error "ring size != r_g size"
       else if ¬ ring2.length = sig2.r_x.length then .error "ring size != r_x size"
       else .error "key image 0 does not belong to the main subgroup") := by
  constructor
  · unfold verify_CLSAG_GG
    simp [h]
  · unfold verify_CLSAG_GGXG
    simp [h2]

/-- Witness for C4: a key image outside the main subgroup is rejected with
the subgroup error on a well-shaped input. -/
theorem C4_witness :
    is_in_main_subgroup (1 : Point) = false ∧
    verify_CLSAG_GG hpW HsW HnrW 0 [⟨8, 16⟩] 0 1 ⟨0, [0], 0⟩ =
      (if ([⟨8, 16⟩] : List CLSAG_GG_input_ref_t).length = 0 then
        .error "ring size is zero"
       else if ¬ ([⟨8, 16⟩] : List CLSAG_GG_input_ref_t).length =
          ([0] : List Scalar).length then .error "ring size != r size"
       else .error "key image 0 does not belong to the main subgroup") ∧
    verify_CLSAG_GGXG hpW HsW HnrW 0 [⟨8, 16, 24⟩] 0 0 1 ⟨0, [0], [0], 0, 0, 0⟩ =
      (if ([⟨8, 16, 24⟩] : List CLSAG_GGXG_input_ref_t).length = 0 then
        .error "ring size is zero"
       else if ¬ ([⟨8, 16, 24⟩] : List CLSAG_GGXG_input_ref_t).length =
          ([0] : List Scalar).length then .error "ring size != r_g size"
       else if ¬ ([⟨8, 16, 24⟩] : List CLSAG_GGXG_input_ref_t).length =
          ([0] : List Scalar).length then .error "ring size != r_x size"
       else .error "key image 0 does not belong to the main subgroup") :=
  ⟨by decide,
    C4_early_subgroup_rejection hpW HsW HnrW 0 [⟨8, 16⟩] 0 1 ⟨0, [0], 0⟩ (by decide)
      0 [⟨8, 16, 24⟩] 0 0 1 ⟨0, [0], [0], 0, 0, 0⟩ (by decide)⟩

/-- C5 counterexample: an input that passes every explicit verifier
precondition check while a decoded ring stealth address lies outside the
main subgroup, refuting the claim that every decoded point used in
verification lies in the main subgroup. -/
theorem C5_counterexample :
    isOkE (verify_CLSAG_GG hpW HsW HnrW 0 [⟨1, 0⟩] 0 0 ⟨0, [0], 0⟩) = true ∧
    (1 : Point) ∈ decoded_points_GG_verify [⟨1, 0⟩] 0 0 ⟨0, [0], 0⟩ ∧
    is_in_main_subgroup (1 : Point) = false ∧
    isOkE (verify_CLSAG_GGXG hpW HsW HnrW 0 [⟨1, 0, 0⟩] 0 0 0
      ⟨0, [0], [0], 0, 0, 0⟩) = true ∧
    (1 : Point) ∈ decoded_points_GGXG_verify [⟨1, 0, 0⟩] 0 0 0
      ⟨0, [0], [0], 0, 0, 0⟩ ∧
    is_in_main_subgroup (1 : Point) = false := by
  decide

/-- C5 amended: for every input that passes the verifier's explicit
precondition checks, decode(ki) lies in the main subgroup; every other
decoded point is only guaranteed to contribute through its mul8 scaling,
which always lies in the main subgroup — the decoded stealth addresses (and
the raw decoded commitments and K values before scaling) carry no subgroup
guarantee. -/
theorem C5_decoded_points_subgroup (hp : Point → Point) (Hs : List ℕ → Scalar)
    (Hnr : List ℕ → ℕ) (m : ℕ) (ring : List CLSAG_GG_input_ref_t) (Cp ki : Point)
    (sig : CLSAG_GG_signature)
    (h : isOkE (verify_CLSAG_GG hp Hs Hnr m ring Cp ki sig) = true)
    (m2 : ℕ) (ring2 : List CLSAG_GGXG_input_ref_t) (C2 T2 ki2 : Point)
    (sig2 : CLSAG_GGXG_signature)
    (h2 : isOkE (verify_CLSAG_GGXG hp Hs Hnr m2 ring2 C2 T2 ki2 sig2) = true) :
    is_in_main_subgroup ki = true ∧
    (∀ P ∈ decoded_points_GG_verify ring Cp ki sig,
      is_in_main_subgroup (mul8 P) = true) ∧
    is_in_main_subgroup ki2 = true ∧
    (∀ P ∈ decoded_points_GGXG_verify ring2 C2 T2 ki2 sig2,
      is_in_main_subgroup (mul8 P) = true) := by
  refine ⟨?_, fun P _ => mul8_mem P, ?_, fun P _ => mul8_mem P⟩
  · unfold verify_CLSAG_GG at h
    by_cases g1 : ring.length = 0
    · rw [if_pos g1] at h
      simp [isOkE] at h
    rw [if_neg g1] at h
    by_cases g2 : ¬ ring.length = sig.r.length
    · rw [if_pos g2] at h
      simp [isOkE] at h
    rw [if_neg g2] at h
    by_cases g3 : ¬ is_in_main_subgroup ki = true
    · rw [if_pos g3] at h
      simp [isOkE] at h
    exact not_not.mp g3
  · unfold verify_CLSAG_GGXG at h2
    by_cases g1 : ring2.length = 0
    · rw [if_pos g1] at h2
      simp [isOkE] at h2
    rw [if_neg g1] at h2
    by_cases g2 : ¬ ring2.length = sig2.r_g.length
    · rw [if_pos g2] at h2
      simp [isOkE] at h2
    rw [if_neg g2] at h2
    by_cases g3 : ¬ ring2.length = sig2.r_x.length
    · rw [if_pos g3] at h2
      simp [isOkE] at h2
    rw [if_neg g3] at h2
    by_cases g4 : ¬ is_in_main_subgroup ki2 = true
    · rw [if_pos g4] at h2
      simp [isOkE] at h2
    exact not_not.mp g4

/-- Witness for C5 at a concrete input passing all explicit checks. -/
theorem C5_witness :
    isOkE (verify_CLSAG_GG hpW HsW HnrW 3 [⟨16, 1⟩] 9 16 ⟨1, [2], 5⟩) = true ∧
    isOkE (verify_CLSAG_GGXG hpW HsW HnrW 3 [⟨16, 1, 5⟩] 9 6 16
      ⟨1, [2], [1], 4, 5, 6⟩) = true ∧
    is_in_main_subgroup (16 : Point) = true ∧
    (∀ P ∈ decoded_points_GG_verify [⟨16, 1⟩] 9 16 ⟨1, [2], 5⟩,
      is_in_main_subgroup (mul8 P) = true) :=
  ⟨by decide, by decide, (C5_decoded_points_subgroup hpW HsW HnrW 3 [⟨16, 1⟩] 9 16
      ⟨1, [2], 5⟩ (by decide) 3 [⟨16, 1, 5⟩] 9 6 16 ⟨1, [2], [1], 4, 5, 6⟩
      (by decide)).1,
    (C5_decoded_points_subgroup hpW HsW HnrW 3 [⟨16, 1⟩] 9 16 ⟨1, [2], 5⟩
      (by decide) 3 [⟨16, 1, 5⟩] 9 6 16 ⟨1, [2], [1], 4, 5, 6⟩ (by decide)).2.1⟩

/-- C6: Div8 round-trip for key images: for every signature produced by a
successful signer call, 8 * decode(sig.K_j) equals the key image point used
internally by that signer (secret_f * hp(stealth_pi) for K1; for GGXG also
secret_x * hp(...) for K2 and secret_q * hp(...) for K3), and each verifier
uses sig.K_j only through its mul8 scaling: replacing any K_j by a point
with the same mul8 image leaves the verifier's outcome unchanged. -/
theorem C6_div8_key_image_round_trip
    (hp : Point → Point) (Hs : List ℕ → Scalar) (Hnr : List ℕ → ℕ)
    (m : ℕ) (ring : List CLSAG_GG_input_ref_t) (C' ki : Point) (x f : Scalar)
    (pi : ℕ) (alpha : Scalar) (rnd : ℕ → Scalar) (sig : CLSAG_GG_signature)
    (hkb : is_in_main_subgroup (ki_base_GG hp ring pi) = true)
    (hsig : generate_CLSAG_GG hp Hs Hnr m ring C' ki x f pi alpha rnd = .ok sig)
    (m2 : ℕ) (ring2 : List CLSAG_GGXG_input_ref_t) (C2 T2 ki2 : Point)
    (xp f2 x2 q2 : Scalar) (pi2 : ℕ) (alpha_g alpha_x : Scalar)
    (rndg rndx : ℕ → Scalar) (sig2 : CLSAG_GGXG_signature)
    (hkb2 : is_in_main_subgroup (ki_base_GGXG hp ring2 pi2) = true)
    (hsig2 : generate_CLSAG_GGXG hp Hs Hnr m2 ring2 C2 T2 ki2 xp f2 x2 q2 pi2
      alpha_g alpha_x rndg rndx = .ok sig2)
    (mv : ℕ) (ringv : List CLSAG_GG_input_ref_t) (Cv kiv : Point) (cv : Scalar)
    (rv : List Scalar) (Ka Kb : Point) (hK : mul8 Ka = mul8 Kb)
    (mw : ℕ) (ringw : List CLSAG_GGXG_input_ref_t) (Cw Tw kiw : Point)
    (cw : Scalar) (rgw rxw : List Scalar) (K1a K1b K2a K2b K3a K3b : Point)
    (hK1 : mul8 K1a = mul8 K1b) (hK2 : mul8 K2a = mul8 K2b)
    (hK3 : mul8 K3a = mul8 K3b) :
    mul8 sig.K1 = smul f (ki_base_GG hp ring pi) ∧
    mul8 sig2.K1 = smul f2 (ki_base_GGXG hp ring2 pi2) ∧
    mul8 sig2.K2 = smul x2 (ki_base_GGXG hp ring2 pi2) ∧
    mul8 sig2.K3 = smul q2 (ki_base_GGXG hp ring2 pi2) ∧
    verify_CLSAG_GG hp Hs Hnr mv ringv Cv kiv ⟨cv, rv, Ka⟩ =
      verify_CLSAG_GG hp Hs Hnr mv ringv Cv kiv ⟨cv, rv, Kb⟩ ∧
    verify_CLSAG_GGXG hp Hs Hnr mw ringw Cw Tw kiw ⟨cw, rgw, rxw, K1a, K2a, K3a⟩ =
      verify_CLSAG_GGXG hp Hs Hnr mw ringw Cw Tw kiw
        ⟨cw, rgw, rxw, K1b, K2b, K3b⟩ := by
  obtain ⟨hπ, hki⟩ := generate_GG_ok_conditions hp Hs Hnr m ring C' ki x f pi
    alpha rnd sig hsig
  rw [generate_CLSAG_GG_ok hp Hs Hnr m ring C' ki x f pi alpha rnd hπ hki] at hsig
  obtain rfl := (Except.ok.inj hsig).symm
  obtain ⟨hπ2, hki2⟩ := generate_GGXG_ok_conditions hp Hs Hnr m2 ring2 C2 T2 ki2
    xp f2 x2 q2 pi2 alpha_g alpha_x rndg rndx sig2 hsig2
  rw [generate_CLSAG_GGXG_ok hp Hs Hnr m2 ring2 C2 T2 ki2 xp f2 x2 q2 pi2 alpha_g
    alpha_x rndg rndx hπ2 hki2] at hsig2
  obtain rfl := (Except.ok.inj hsig2).symm
  refine ⟨mul8_smul_inv8 f _ hkb, mul8_smul_inv8 f2 _ hkb2,
    mul8_smul_inv8 x2 _ hkb2, mul8_smul_inv8 q2 _ hkb2, ?_, ?_⟩
  · unfold verify_CLSAG_GG verify_core_GG
    dsimp only
    rw [hK]
  · unfold verify_CLSAG_GGXG verify_core_GGXG
    dsimp only
    rw [hK1, hK2, hK3]

/-- Witness for C6: the div8 round-trip at the concrete signing instances,
and outcome invariance under replacing K values by 0 versus 44 (both have
mul8 image 0). -/
theorem C6_witness :
    mul8 ((⟨1, [1], 8⟩ : CLSAG_GG_signature).K1) =
      smul 2 (ki_base_GG hpW [⟨16, 1⟩] 0) ∧
    mul8 ((⟨2, [1, 2], [2, 0], 8, 16, 16⟩ : CLSAG_GGXG_signature).K1) =
      smul 1 (ki_base_GGXG hpW [⟨1, 2, 3⟩, ⟨8, 2, 2⟩] 1) ∧
    mul8 ((⟨2, [1, 2], [2, 0], 8, 16, 16⟩ : CLSAG_GGXG_signature).K2) =
      smul 2 (ki_base_GGXG hpW [⟨1, 2, 3⟩, ⟨8, 2, 2⟩] 1) ∧
    mul8 ((⟨2, [1, 2], [2, 0], 8, 16, 16⟩ : CLSAG_GGXG_signature).K3) =
      smul 2 (ki_base_GGXG hpW [⟨1, 2, 3⟩, ⟨8, 2, 2⟩] 1) ∧
    verify_CLSAG_GG hpW HsW HnrW 0 [⟨8, 16⟩] 0 0 ⟨0, [0], 0⟩ =
      verify_CLSAG_GG hpW HsW HnrW 0 [⟨8, 16⟩] 0 0 ⟨0, [0], 3⟩ ∧
    verify_CLSAG_GGXG hpW HsW HnrW 0 [⟨8, 16, 4⟩] 0 0 0 ⟨0, [0], [0], 0, 0, 0⟩ =
      verify_CLSAG_GGXG hpW HsW HnrW 0 [⟨8, 16, 4⟩] 0 0 0
        ⟨0, [0], [0], 3, 3, 3⟩ :=
  C6_div8_key_image_round_trip hpW HsW HnrW
    5 [⟨16, 1⟩] 16 16 2 2 0 2 (fun _ => 1) ⟨1, [1], 8⟩ (by decide) (by decide)
    7 [⟨1, 2, 3⟩, ⟨8, 2, 2⟩] 8 16 16 1 1 2 2 1 1 2
    (fun i => (i : Scalar) + 1) (fun i => (i : Scalar) + 2)
    ⟨2, [1, 2], [2, 0], 8, 16, 16⟩ (by decide) (by decide)
    0 [⟨8, 16⟩] 0 0 0 [0] 0 3 (by decide)
    0 [⟨8, 16, 4⟩] 0 0 0 0 [0] [0] 0 3 0 3 0 3
    (by decide) (by decide) (by decide)

/-- C7: GGXG key-image sides: in both generate_CLSAG_GGXG and
verify_CLSAG_GGXG the G-side aggregate key image is
mu0 * decode(ki) + mu1 * K1 + mu3 * K3 with K2 absent from the G side, and
the X-side aggregate key image is mu2 * K2; the verifier builds them from
8 * decode(sig.K_j). -/
theorem C7_ggxg_key_image_sides (a0 a1 a2 a3 : Scalar) (KI K1 K2 K3 : Point)
    (hp : Point → Point) (Hs : List ℕ → Scalar) (Hnr : List ℕ → ℕ)
    (m : ℕ) (ring : List CLSAG_GGXG_input_ref_t) (C T ki : Point)
    (sig : CLSAG_GGXG_signature) :
    W_key_image_g_GGXG a0 a1 a3 KI K1 K3 = spec_Wg_ki a0 a1 a2 a3 KI K1 K2 K3 ∧
    W_key_image_x_GGXG a2 K2 = spec_Wx_ki a2 K2 ∧
    verify_core_GGXG hp Hs Hnr m ring C T ki sig = decide
      ((List.range ring.length).foldl
        (chal_block_GGXG hp Hs (Hnr (input_items_GGXG_ver m ring C T ki)) ring
          (W_pub_keys_g_GGXG
            (agg_coeff Hs CRYPTO_HDS_CLSAG_GGXG_LAYER_0
              (Hnr (input_items_GGXG_ver m ring C T ki)))
            (agg_coeff Hs CRYPTO_HDS_CLSAG_GGXG_LAYER_1
              (Hnr (input_items_GGXG_ver m ring C T ki)))
            (agg_coeff Hs CRYPTO_HDS_CLSAG_GGXG_LAYER_3
              (Hnr (input_items_GGXG_ver m ring C T ki))) ring (mul8 C))
          (W_pub_keys_x_GGXG
            (agg_coeff Hs CRYPTO_HDS_CLSAG_GGXG_LAYER_2
              (Hnr (input_items_GGXG_ver m ring C T ki))) ring (mul8 T))
          (spec_Wg_ki
            (agg_coeff Hs CRYPTO_HDS_CLSAG_GGXG_LAYER_0
              (Hnr (input_items_GGXG_ver m ring C T ki)))
            (agg_coeff Hs CRYPTO_HDS_CLSAG_GGXG_LAYER_1
              (Hnr (input_items_GGXG_ver m ring C T ki)))
            (agg_coeff Hs CRYPTO_HDS_CLSAG_GGXG_LAYER_2
              (Hnr (input_items_GGXG_ver m ring C T ki)))
            (agg_coeff Hs CRYPTO_HDS_CLSAG_GGXG_LAYER_3
              (Hnr (input_items_GGXG_ver m ring C T ki)))
            ki (mul8 sig.K1) (mul8 sig.K2) (mul8 sig.K3))
          (spec_Wx_ki
            (agg_coeff Hs CRYPTO_HDS_CLSAG_GGXG_LAYER_2
              (Hnr (input_items_GGXG_ver m ring C T ki))) (mul8 sig.K2))
          (fun i => sig.r_g.getD i 0) (fun i => sig.r_x.getD i 0))
        sig.c = sig.c) :=
  ⟨rfl, rfl, rfl⟩

/-- C8: Signer walk structure: the signer's challenge loop runs n - 1
iterations over the indices (pi + 1 + j) mod n; sig.c is assigned exactly
once (inside the loop at position 0, or after the loop when pi = 0) and
receives the challenge chain value at ring position 0; the walk is closed
by overwriting the secret slot of r with alpha - c_final * w; for n = 1 the
loop body never runs and sig.c is the initial commitment challenge. -/
theorem C8_signer_walk_structure
    (hp : Point → Point) (Hs : List ℕ → Scalar) (Hnr : List ℕ → ℕ)
    (m : ℕ) (ring : List CLSAG_GG_input_ref_t) (C' ki : Point) (x f : Scalar)
    (pi : ℕ) (alpha : Scalar) (rnd : ℕ → Scalar) (sig : CLSAG_GG_signature)
    (hsig : generate_CLSAG_GG hp Hs Hnr m ring C' ki x f pi alpha rnd = .ok sig)
    (m2 : ℕ) (ring2 : List CLSAG_GGXG_input_ref_t) (C2 T2 ki2 : Point)
    (xp f2 x2 q2 : Scalar) (pi2 : ℕ) (alpha_g alpha_x : Scalar)
    (rndg rndx : ℕ → Scalar) (sig2 : CLSAG_GGXG_signature)
    (hsig2 : generate_CLSAG_GGXG hp Hs Hnr m2 ring2 C2 T2 ki2 xp f2 x2 q2 pi2
      alpha_g alpha_x rndg rndx = .ok sig2) :
    sig.c = signer_chain_GG hp Hs Hnr m ring C' ki x f pi alpha rnd
      (ring.length - 1 - pi) ∧
    sig.r.getD pi 0 = alpha - signer_chain_GG hp Hs Hnr m ring C' ki x f pi alpha
      rnd (ring.length - 1) * signer_w_GG Hs Hnr m ring C' ki x f ∧
    ((Finset.range (ring.length - 1)).filter
      (fun j => idxW pi ring.length j = 0)).card + (if pi = 0 then 1 else 0) = 1 ∧
    (ring.length = 1 → sig.c = cinit_GG Hs (Hnr (input_items_GG_gen m ring C' ki))
      alpha (ki_base_GG hp ring pi)) ∧
    sig2.c = signer_chain_GGXG hp Hs Hnr m2 ring2 C2 T2 ki2 xp f2 x2 q2 pi2
      alpha_g alpha_x rndg rndx (ring2.length - 1 - pi2) ∧
    sig2.r_g.getD pi2 0 = alpha_g - signer_chain_GGXG hp Hs Hnr m2 ring2 C2 T2 ki2
      xp f2 x2 q2 pi2 alpha_g alpha_x rndg rndx (ring2.length - 1) *
        signer_wg_GGXG Hs Hnr m2 ring2 C2 T2 ki2 xp f2 q2 ∧
    sig2.r_x.getD pi2 0 = alpha_x - signer_chain_GGXG hp Hs Hnr m2 ring2 C2 T2 ki2
      xp f2 x2 q2 pi2 alpha_g alpha_x rndg rndx (ring2.length - 1) *
        signer_wx_GGXG Hs Hnr m2 ring2 C2 T2 ki2 x2 ∧
    ((Finset.range (ring2.length - 1)).filter
      (fun j => idxW pi2 ring2.length j = 0)).card +
        (if pi2 = 0 then 1 else 0) = 1 := by
  obtain ⟨hπ, hki⟩ := generate_GG_ok_conditions hp Hs Hnr m ring C' ki x f pi
    alpha rnd sig hsig
  rw [generate_CLSAG_GG_ok hp Hs Hnr m ring C' ki x f pi alpha rnd hπ hki] at hsig
  obtain rfl := (Except.ok.inj hsig).symm
  obtain ⟨hπ2, hki2⟩ := generate_GGXG_ok_conditions hp Hs Hnr m2 ring2 C2 T2 ki2
    xp f2 x2 q2 pi2 alpha_g alpha_x rndg rndx sig2 hsig2
  rw [generate_CLSAG_GGXG_ok hp Hs Hnr m2 ring2 C2 T2 ki2 xp f2 x2 q2 pi2 alpha_g
    alpha_x rndg rndx hπ2 hki2] at hsig2
  obtain rfl := (Except.ok.inj hsig2).symm
  refine ⟨rfl, ?_, walk_visits_zero_count pi ring.length hπ, ?_, rfl, ?_, ?_,
    walk_visits_zero_count pi2 ring2.length hπ2⟩
  · exact getD_set_self _ _ _ (by simpa using hπ)
  · intro h1
    have hpi0 : pi = 0 := by omega
    subst hpi0
    show signer_chain_GG hp Hs Hnr m ring C' ki x f 0 alpha rnd
      (ring.length - 1 - 0) = _
    unfold signer_chain_GG
    simp only []
    rw [show ring.length - 1 - 0 = 0 by omega]
    rfl
  · exact getD_set_self _ _ _ (by simpa using hπ2)
  · exact getD_set_self _ _ _ (by simpa using hπ2)

/-- Witness for C8 at the concrete signing instances (ring sizes 1 and 2). -/
theorem C8_witness :
    (⟨1, [1], 8⟩ : CLSAG_GG_signature).c =
      signer_chain_GG hpW HsW HnrW 5 [⟨16, 1⟩] 16 16 2 2 0 2 (fun _ => 1)
        (([⟨16, 1⟩] : List CLSAG_GG_input_ref_t).length - 1 - 0) :=
  (C8_signer_walk_structure hpW HsW HnrW
    5 [⟨16, 1⟩] 16 16 2 2 0 2 (fun _ => 1) ⟨1, [1], 8⟩ (by decide)
    7 [⟨1, 2, 3⟩, ⟨8, 2, 2⟩] 8 16 16 1 1 2 2 1 1 2
    (fun i => (i : Scalar) + 1) (fun i => (i : Scalar) + 2)
    ⟨2, [1, 2], [2, 0], 8, 16, 16⟩ (by decide)).1

end ClsagSpec
